import Mathlib

/-!
# Human-interface MCU of the door-lock system (`HMI_mcu.c`)

A shallow embedding of `HMI_mcu.c`.  The drivers the file calls (`uart`, `lcd`,
`keypad`, `timer`, `_delay_ms`) are external: every call to one of them is
recorded, in program order and with the value it returns, in the `trace` of the
machine state, and the two input devices are the lists `keys` and `rx` of the
values that the successive calls of `KEYPAD_getPressedKey` and
`UART_recieveByte` return (each a `uint8`).  A blocking call on an exhausted
input never returns; such a run is `none`.

`uint8` variables are natural numbers reduced `% 256` wherever the program
writes them.
-/

namespace HMI

/-- The constants that `HMI_mcu.c` takes from `HMI_mcu.h`, as parameters of the
embedding. -/
structure Config where
  PASSWORD_LENGTH : Nat
  PASS_MIS_MATCHED : Nat
  READY_TO_SEND : Nat
  READY_TO_RECEIVE : Nat
  RECEIVE_DONE : Nat
  SEND_FIRST_PASSWORD : Nat
  SEND_SECOND_PASSWORD : Nat
  SEND_CHECK_PASSWORD : Nat
  OPEN_DOOR : Nat
  CHANGE_PASSWORD : Nat
  OPENING_DOOR : Nat
  CHANGING_PASSWORD : Nat
  WRONG_PASSWORD : Nat
  MAX_NUM_OF_MISTAKES : Nat
  OPEN_DOOR_TIME : Nat
  HOLD_DOOR_TIME : Nat
  CLOSE_DOOR_TIME : Nat
  WARNING_TIME : Nat
  STAND_PRESENTATION_TIME : Nat
  SEND_RECEIVE_TIME : Nat
  KEYPAD_CLICK_TIME : Nat
deriving DecidableEq

/-- One call of an external driver, or one firing of the timer interrupt. -/
inductive Event where
  | uartInit
  | lcdInit
  | lcdClear
  | lcdCursor (row col : Nat)
  | lcdString (text : String)
  | lcdChar (ch : Char)
  | delay (ms : Nat)
  | uartTx (byte : Nat)
  | uartRx (byte : Nat)
  | key (code : Nat)
  | timerStart
  | timerStop
  | tick
deriving DecidableEq

/-- Machine state: the five globals of `HMI_mcu.c`, the two input devices, the
timer, the trace of driver calls, and the history variable `peakMistakes` (the
largest value `g_passwordMistakes` has been assigned). -/
structure St where
  g_inputPassword : List Nat
  g_matchStatus : Nat
  g_tick : Nat
  g_passwordMistakes : Nat
  g_command : Nat
  keys : List Nat
  rx : List Nat
  timerOn : Bool
  trace : List Event
  peakMistakes : Nat
deriving DecidableEq

/-- The code of the confirm key, the character `=`. -/
def KEY_ENTER : Nat := 61

/-! ## Drivers -/

/-- Record one event at the end of the trace. -/
def emit (e : Event) (s : St) : St :=
  { s with trace := s.trace ++ [e] }

/-- The call `UART_init(&UART_Config)`. -/
def UART_init (s : St) : St := emit Event.uartInit s

/-- The call `LCD_init()`. -/
def LCD_init (s : St) : St := emit Event.lcdInit s

/-- The call `LCD_clearScreen()`. -/
def LCD_clearScreen (s : St) : St := emit Event.lcdClear s

/-- The call `LCD_moveCursor(row, col)`. -/
def LCD_moveCursor (row col : Nat) (s : St) : St := emit (Event.lcdCursor row col) s

/-- The call `LCD_displayString(text)`. -/
def LCD_displayString (text : String) (s : St) : St := emit (Event.lcdString text) s

/-- The call `LCD_displayCharacter(ch)`. -/
def LCD_displayCharacter (ch : Char) (s : St) : St := emit (Event.lcdChar ch) s

/-- The library call `_delay_ms(ms)`. -/
def delay_ms (ms : Nat) (s : St) : St := emit (Event.delay ms) s

/-- Transmit one byte: the argument is a `uint8`. -/
def UART_sendByte (b : Nat) (s : St) : St := emit (Event.uartTx (b % 256)) s

/-- Blocking receive of one byte. -/
def UART_recieveByte (s : St) : Option (Nat × St) :=
  match s.rx with
  | [] => none
  | b :: bs => some (b, emit (Event.uartRx b) { s with rx := bs })

/-- Blocking read of one key. -/
def KEYPAD_getPressedKey (s : St) : Option (Nat × St) :=
  match s.keys with
  | [] => none
  | k :: ks => some (k, emit (Event.key k) { s with keys := ks })

/-- The call `Timer_DeInit(TIMER1_ID)`: the timer stops. -/
def Timer_DeInit (s : St) : St :=
  emit Event.timerStop { s with timerOn := false }

/-- Read values off an input until one equals `m`: the values read, `m`
included, and what is left of the input. -/
def awaitByte (m : Nat) : List Nat → Option (List Nat × List Nat)
  | [] => none
  | b :: bs =>
    if b ≠ m then (awaitByte m bs).map fun r => (b :: r.1, r.2)
    else some ([b], bs)

/-- The loop `while(UART_recieveByte() != m);`. -/
def UART_await (m : Nat) (s : St) : Option St :=
  (awaitByte m s.rx).map fun r =>
    { s with rx := r.2, trace := s.trace ++ r.1.map Event.uartRx }

/-- The loop `while(KEYPAD_getPressedKey() != m);`. -/
def KEYPAD_await (m : Nat) (s : St) : Option St :=
  (awaitByte m s.keys).map fun r =>
    { s with keys := r.2, trace := s.trace ++ r.1.map Event.key }

/-! ## The timer interrupt and the busy-wait loops -/

/-- The interrupt handler: `g_tick++` on a `uint8`. -/
def HMI_TimerCallBackProcessing (s : St) : St :=
  { s with g_tick := (s.g_tick + 1) % 256 }

/-- One period of the running timer: the interrupt fires once. -/
def interrupt (s : St) : St :=
  HMI_TimerCallBackProcessing (emit Event.tick s)

/-- A busy-wait `while(cond(g_tick));`: while the condition holds the program
spins, and the only thing that happens is the next timer interrupt (none if the
timer is stopped).  The fuel bounds the number of tests of the condition. -/
def spin (cond : Nat → Bool) : Nat → St → Option St
  | 0, _ => none
  | fuel + 1, s =>
    if cond s.g_tick then
      if s.timerOn then spin cond fuel (interrupt s) else none
    else some s

/-- A busy-wait on the `uint8` counter `g_tick`: 256 tests see every value the
counter can take, so the wait ends within them or never (`busyWait_fuel`). -/
def busyWait (cond : Nat → Bool) (s : St) : Option St := spin cond 256 s

/-- Lines 179-189: `Timer_init` with the one-second compare-match configuration and
`Timer_setCallBack(HMI_TimerCallBackProcessing, TIMER1_ID)`: the timer runs. -/
def HMI_startTimer (s : St) : St :=
  emit Event.timerStart { s with timerOn := true }

/-! ## Link handshake -/

/-- Lines 193-206.  The parameter (a `uint8` that the source names `g_command`,
hiding the global of that name, which is not written here) is `command`. -/
def HMI_sendCommand (cfg : Config) (command : Nat) (s : St) : Option St := do
  let s := UART_sendByte cfg.READY_TO_SEND s
  let s ← UART_await cfg.READY_TO_RECEIVE s
  let s := UART_sendByte command s
  UART_await cfg.RECEIVE_DONE s

/-- Lines 210-225.  Returns the received command together with the state. -/
def HMI_receiveCommand (cfg : Config) (s : St) : Option (Nat × St) := do
  let s ← UART_await cfg.READY_TO_SEND s
  let s := UART_sendByte cfg.READY_TO_RECEIVE s
  let (b, s) ← UART_recieveByte s
  let s := { s with g_command := b }
  let s := UART_sendByte cfg.RECEIVE_DONE s
  pure (s.g_command, s)

/-- The loop of `HMI_sendPassword` from `counter` on; `counter` is a `uint8`. -/
def sendPassword_loop (cfg : Config) : Nat → Nat → St → Option St
  | 0, _, _ => none
  | fuel + 1, counter, s =>
    if counter < cfg.PASSWORD_LENGTH then
      sendPassword_loop cfg fuel ((counter + 1) % 256)
        (delay_ms cfg.SEND_RECEIVE_TIME (UART_sendByte (s.g_inputPassword.getD counter 0) s))
    else some s

/-- Lines 273-283; called only on `g_inputPassword`.  257 tests of the loop
condition see every value of the `uint8` counter, so the loop ends within
them or never. -/
def HMI_sendPassword (cfg : Config) (s : St) : Option St :=
  sendPassword_loop cfg 257 0 s

/-! ## Password capture -/

/-- The first loop of `HMI_getPassword`, reading the keys of the list (which is
`s.keys`); `counter` is a `uint8`. -/
def getPassword_fill (cfg : Config) : List Nat → Nat → St → Option St
  | [], counter, s => if counter ≠ cfg.PASSWORD_LENGTH then none else some s
  | k :: ks, counter, s =>
    if counter ≠ cfg.PASSWORD_LENGTH then
      let s := emit (Event.key k) { s with keys := ks }
      if k ≤ 9 then
        getPassword_fill cfg ks ((counter + 1) % 256)
          (delay_ms cfg.KEYPAD_CLICK_TIME
            { LCD_displayCharacter '*' s with
              g_inputPassword := s.g_inputPassword.set counter k })
      else
        getPassword_fill cfg ks counter (delay_ms cfg.KEYPAD_CLICK_TIME s)
    else some s

/-- Lines 287-310; called only on `g_inputPassword`. -/
def HMI_getPassword (cfg : Config) (s : St) : Option St := do
  let s := LCD_moveCursor 1 0 s
  let s ← getPassword_fill cfg s.keys 0 s
  KEYPAD_await KEY_ENTER s

/-- Lines 314-320. -/
def HMI_mainOptions (s : St) : St :=
  let s := LCD_clearScreen s
  let s := LCD_displayString "(+): Open Door" s
  let s := LCD_moveCursor 1 0 s
  LCD_displayString "(-): Change Pass" s

/-- Lines 324-329. -/
def HMI_promptPassword (cfg : Config) (s : St) : Option St :=
  let s := LCD_clearScreen s
  let s := LCD_displayString "Enter Password :" s
  HMI_getPassword cfg s

/-! ## Enrollment -/

/-- One pass through the body of the `while` loop of `HMI_newPassword`. -/
def newPassword_body (cfg : Config) (s : St) : Option St := do
  let s := LCD_clearScreen s
  let s := LCD_displayString "  New Password  " s
  let s := delay_ms cfg.STAND_PRESENTATION_TIME s
  let s := LCD_clearScreen s
  let s := LCD_displayString "Enter Password" s
  let s := LCD_moveCursor 1 0 s
  let s ← HMI_getPassword cfg s
  let s ← HMI_sendCommand cfg cfg.SEND_FIRST_PASSWORD s
  let s ← HMI_sendPassword cfg s
  let s := LCD_clearScreen s
  let s := LCD_displayString "ReEnter Password" s
  let s := LCD_moveCursor 1 0 s
  let s ← HMI_getPassword cfg s
  let s ← HMI_sendCommand cfg cfg.SEND_SECOND_PASSWORD s
  let s ← HMI_sendPassword cfg s
  let (v, s) ← HMI_receiveCommand cfg s
  let s := { s with g_matchStatus := v }
  if s.g_matchStatus = cfg.PASS_MIS_MATCHED then
    let s := LCD_clearScreen s
    let s := LCD_displayString "MISMATCHED Pass" s
    pure (delay_ms cfg.STAND_PRESENTATION_TIME s)
  else pure s

/-- The `while` loop of `HMI_newPassword`; the fuel bounds the number of tests
of its condition. -/
def newPassword_loop (cfg : Config) : Nat → St → Option St
  | 0, _ => none
  | fuel + 1, s =>
    if s.g_matchStatus = cfg.PASS_MIS_MATCHED then
      (newPassword_body cfg s).bind (newPassword_loop cfg fuel)
    else some s

/-- Lines 229-269.  Every pass of the loop takes bytes off `rx`, so
`rx.length + 1` tests of the condition are never used up
(`newPassword_loop_fuel`). -/
def HMI_newPassword (cfg : Config) (s : St) : Option St :=
  newPassword_loop cfg (s.rx.length + 1)
    { s with g_matchStatus := cfg.PASS_MIS_MATCHED % 256 }

/-! ## Door sequencer and lockout guard -/

/-- Lines 333-357. -/
def HMI_openingDoor (cfg : Config) (s : St) : Option St := do
  let s := HMI_startTimer s
  let s := LCD_clearScreen s
  let s := LCD_displayString "Door is Opening" s
  let s ← busyWait (fun t => decide (t < cfg.OPEN_DOOR_TIME)) s
  let s := { s with g_tick := 0 }
  let s := LCD_clearScreen s
  let s := LCD_displayString "Door is on Hold" s
  let s ← busyWait (fun t => decide (t < cfg.HOLD_DOOR_TIME)) s
  let s := { s with g_tick := 0 }
  let s := LCD_clearScreen s
  let s := LCD_displayString "Door is Closing" s
  let s ← busyWait (fun t => decide (t < cfg.CLOSE_DOOR_TIME)) s
  let s := { s with g_tick := 0 }
  let s := Timer_DeInit s
  pure (LCD_clearScreen s)

/-- The statement `g_passwordMistakes++` on a `uint8`, with the history
variable brought up to date. -/
def countMistake (s : St) : St :=
  { s with
    g_passwordMistakes := (s.g_passwordMistakes + 1) % 256
    peakMistakes := max s.peakMistakes ((s.g_passwordMistakes + 1) % 256) }

/-- Lines 361-387. -/
def HMI_wrongPassword (cfg : Config) (s : St) : Option St := do
  let s := countMistake s
  let s := LCD_clearScreen s
  let s := LCD_displayString " Wrong Password " s
  let s := delay_ms cfg.STAND_PRESENTATION_TIME s
  if s.g_passwordMistakes = cfg.MAX_NUM_OF_MISTAKES then
    let s := HMI_startTimer s
    let s := LCD_clearScreen s
    let s := LCD_displayString "!!! WARNING !!!" s
    let s ← busyWait (fun t => decide (t ≠ cfg.WARNING_TIME)) s
    let s := { s with g_passwordMistakes := 0, g_tick := 0 }
    let s := Timer_DeInit s
    pure (LCD_clearScreen s)
  else pure (LCD_clearScreen s)

/-! ## Session loop -/

/-- The statements shared by the two cases of the `switch` in `main`, up to and
including the assignment of the verdict: lines 100-109 for `OPEN_DOOR` and
130-139 for `CHANGE_PASSWORD` differ only in the action that is sent. -/
def verification (cfg : Config) (action : Nat) (s : St) : Option St := do
  let s ← HMI_promptPassword cfg s
  let s ← HMI_sendCommand cfg cfg.SEND_CHECK_PASSWORD s
  let s ← HMI_sendPassword cfg s
  let s ← HMI_sendCommand cfg action s
  let (v, s) ← HMI_receiveCommand cfg s
  pure { s with g_matchStatus := v }

/-- The `if`/`else if` that follows the verdict in the `OPEN_DOOR` case. -/
def dispatchOpen (cfg : Config) (s : St) : Option St :=
  if s.g_matchStatus = cfg.OPENING_DOOR then HMI_openingDoor cfg s
  else if s.g_matchStatus = cfg.WRONG_PASSWORD then HMI_wrongPassword cfg s
  else some s

/-- The `if`/`else if` that follows the verdict in the `CHANGE_PASSWORD` case. -/
def dispatchChange (cfg : Config) (s : St) : Option St :=
  if s.g_matchStatus = cfg.CHANGING_PASSWORD then HMI_newPassword cfg s
  else if s.g_matchStatus = cfg.WRONG_PASSWORD then HMI_wrongPassword cfg s
  else some s

/-- One pass through the super loop of `main`, lines 84-156: the menu, the key
and the `switch` on it (a key that is neither case does nothing). -/
def superLoop_body (cfg : Config) (s : St) : Option St := do
  let s := HMI_mainOptions s
  let (key_option, s) ← KEYPAD_getPressedKey s
  if key_option = cfg.OPEN_DOOR then
    (verification cfg cfg.OPEN_DOOR s).bind (dispatchOpen cfg)
  else if key_option = cfg.CHANGE_PASSWORD then
    (verification cfg cfg.CHANGE_PASSWORD s).bind (dispatchChange cfg)
  else pure s

/-- The first `n` passes of the super loop. -/
def superLoop (cfg : Config) : Nat → St → Option St
  | 0, s => some s
  | n + 1, s => (superLoop_body cfg s).bind (superLoop cfg n)

/-- The code of `main` before the super loop (global interrupts are enabled
first; the timer interrupt is modelled in `spin`). -/
def main_init (cfg : Config) (s : St) : Option St :=
  let s := UART_init s
  let s := LCD_init s
  let s := LCD_moveCursor 0 4 s
  let s := LCD_displayString "Welcome" s
  let s := LCD_moveCursor 1 0 s
  let s := LCD_displayString "Use (=) as Enter" s
  let s := delay_ms cfg.STAND_PRESENTATION_TIME s
  let s := LCD_clearScreen s
  HMI_newPassword cfg s

/-- The function `main` observed through the first `n` passes of its super
loop (it never returns). -/
def main (cfg : Config) (n : Nat) (s : St) : Option St :=
  (main_init cfg s).bind (superLoop cfg n)

/-- The state in which `main` starts: the globals as initialised in the file,
with the given inputs. -/
def initialState (cfg : Config) (keys rx : List Nat) : St :=
  { g_inputPassword := List.replicate cfg.PASSWORD_LENGTH 0
    g_matchStatus := cfg.PASS_MIS_MATCHED % 256
    g_tick := 0
    g_passwordMistakes := 0
    g_command := 0
    keys := keys
    rx := rx
    timerOn := false
    trace := []
    peakMistakes := 0 }


/-! ## Sample constants -/

/-- Sample values for the constants of `HMI_mcu.h`, to run the embedding on
concrete inputs: the values that the comments of `HMI_mcu.c` name (a password
of 5 digits, 15, 3 and 15 seconds for the door, one minute of warning, 3
mistakes), the keys `+` and `-` of the menu, and pairwise distinct bytes for
the commands of the link. -/
def defaultConfig : Config :=
  { PASSWORD_LENGTH := 5
    PASS_MIS_MATCHED := 0
    READY_TO_SEND := 21
    READY_TO_RECEIVE := 22
    RECEIVE_DONE := 23
    SEND_FIRST_PASSWORD := 17
    SEND_SECOND_PASSWORD := 18
    SEND_CHECK_PASSWORD := 19
    OPEN_DOOR := 43
    CHANGE_PASSWORD := 45
    OPENING_DOOR := 34
    CHANGING_PASSWORD := 49
    WRONG_PASSWORD := 48
    MAX_NUM_OF_MISTAKES := 3
    OPEN_DOOR_TIME := 15
    HOLD_DOOR_TIME := 3
    CLOSE_DOOR_TIME := 15
    WARNING_TIME := 60
    STAND_PRESENTATION_TIME := 1500
    SEND_RECEIVE_TIME := 10
    KEYPAD_CLICK_TIME := 500 }

/-- A sample verdict for "the two entries match": any byte other than
`PASS_MIS_MATCHED`. -/
def samplePassMatched : Nat := 1

/-! ## What is read off a trace -/

/-- The bytes a trace transmits, in order. -/
def txBytes : List Event → List Nat
  | [] => []
  | Event.uartTx b :: es => b :: txBytes es
  | _ :: es => txBytes es

/-- The link events of a trace, in order. -/
def linkTraffic (tr : List Event) : List Event :=
  tr.filter fun e =>
    match e with
    | Event.uartTx _ => true
    | Event.uartRx _ => true
    | _ => false

/-- The number of timer interrupts in a trace. -/
def ticksIn (tr : List Event) : Nat := tr.count Event.tick

/-- The number of times a trace shows the first screen of an enrollment round. -/
def roundsStarted (tr : List Event) : Nat :=
  tr.count (Event.lcdString "  New Password  ")

/-! ## The traces of the functions -/

/-- The digit keys of a key sequence, in order. -/
def digitsOf (ks : List Nat) : List Nat := ks.filter fun k => decide (k ≤ 9)

/-- The driver calls of the first loop of `HMI_getPassword` while it reads the
keys `ks`. -/
def fillTrace (cfg : Config) : List Nat → List Event
  | [] => []
  | k :: ks =>
    (if k ≤ 9 then
        [Event.key k, Event.lcdChar '*', Event.delay cfg.KEYPAD_CLICK_TIME]
      else [Event.key k, Event.delay cfg.KEYPAD_CLICK_TIME]) ++ fillTrace cfg ks

/-- The driver calls of one `HMI_getPassword` that reads the keys `pre` in its
first loop and the keys `mid` and the confirm key in its second. -/
def getPasswordTrace (cfg : Config) (pre mid : List Nat) : List Event :=
  Event.lcdCursor 1 0 :: fillTrace cfg pre ++ (mid ++ [KEY_ENTER]).map Event.key

/-- The driver calls of `HMI_sendPassword` for the array contents `p`. -/
def sendPasswordTrace (cfg : Config) : List Nat → List Event
  | [] => []
  | b :: bs =>
    Event.uartTx (b % 256) :: Event.delay cfg.SEND_RECEIVE_TIME :: sendPasswordTrace cfg bs

/-- The driver calls of `HMI_sendCommand` with a peer that answers without
stray bytes. -/
def sendCommandTrace (cfg : Config) (command : Nat) : List Event :=
  [Event.uartTx (cfg.READY_TO_SEND % 256), Event.uartRx cfg.READY_TO_RECEIVE,
   Event.uartTx (command % 256), Event.uartRx cfg.RECEIVE_DONE]

/-- The driver calls of `HMI_receiveCommand` when the peer sends `v` without
stray bytes. -/
def receiveCommandTrace (cfg : Config) (v : Nat) : List Event :=
  [Event.uartRx cfg.READY_TO_SEND, Event.uartTx (cfg.READY_TO_RECEIVE % 256),
   Event.uartRx v, Event.uartTx (cfg.RECEIVE_DONE % 256)]

/-- The driver calls and interrupts of one run of `HMI_openingDoor`. -/
def doorTrace (cfg : Config) : List Event :=
  [Event.timerStart, Event.lcdClear, Event.lcdString "Door is Opening"] ++
    List.replicate cfg.OPEN_DOOR_TIME Event.tick ++
  [Event.lcdClear, Event.lcdString "Door is on Hold"] ++
    List.replicate cfg.HOLD_DOOR_TIME Event.tick ++
  [Event.lcdClear, Event.lcdString "Door is Closing"] ++
    List.replicate cfg.CLOSE_DOOR_TIME Event.tick ++
  [Event.timerStop, Event.lcdClear]

/-- The driver calls of a run of `HMI_wrongPassword` that does not enter the
warning phase. -/
def wrongTrace (cfg : Config) : List Event :=
  [Event.lcdClear, Event.lcdString " Wrong Password ",
   Event.delay cfg.STAND_PRESENTATION_TIME, Event.lcdClear]

/-- The driver calls and interrupts of a run of `HMI_wrongPassword` that
enters the warning phase. -/
def lockoutTrace (cfg : Config) : List Event :=
  [Event.lcdClear, Event.lcdString " Wrong Password ",
   Event.delay cfg.STAND_PRESENTATION_TIME,
   Event.timerStart, Event.lcdClear, Event.lcdString "!!! WARNING !!!"] ++
    List.replicate cfg.WARNING_TIME Event.tick ++
  [Event.timerStop, Event.lcdClear]

/-- The driver calls of `HMI_mainOptions`. -/
def menuTrace : List Event :=
  [Event.lcdClear, Event.lcdString "(+): Open Door", Event.lcdCursor 1 0,
   Event.lcdString "(-): Change Pass"]

/-! ## Entries, enrollment rounds and verifications as the environment plays them -/

/-- The keys of one password entry: `pre` runs up to and including the
`PASSWORD_LENGTH`-th digit key, `mid` are the keys pressed after it and before
the confirm key. -/
structure Entry where
  pre : List Nat
  mid : List Nat

/-- The keys pressed for the entry, the confirm key included. -/
def Entry.keys (e : Entry) : List Nat := e.pre ++ (e.mid ++ [KEY_ENTER])

/-- The password the entry types. -/
def Entry.password (e : Entry) : List Nat := digitsOf e.pre

/-- `pre` ends with its `PASSWORD_LENGTH`-th digit key and `mid` has no confirm
key. -/
def Entry.ok (cfg : Config) (e : Entry) : Prop :=
  (digitsOf e.pre).length = cfg.PASSWORD_LENGTH ∧ (∀ k ∈ e.pre.getLast?, k ≤ 9) ∧
    KEY_ENTER ∉ e.mid

/-- One enrollment round as the environment plays it: the two entries typed
and the verdict the control MCU answers. -/
structure Round where
  first : Entry
  second : Entry
  verdict : Nat

/-- The keys pressed during the round. -/
def Round.keys (r : Round) : List Nat := r.first.keys ++ r.second.keys

/-- What the control MCU sends during the round, without stray bytes. -/
def Round.rx (cfg : Config) (r : Round) : List Nat :=
  [cfg.READY_TO_RECEIVE, cfg.RECEIVE_DONE, cfg.READY_TO_RECEIVE, cfg.RECEIVE_DONE,
   cfg.READY_TO_SEND, r.verdict]

/-- The driver calls of one pass through the loop of `HMI_newPassword`. -/
def Round.trace (cfg : Config) (r : Round) : List Event :=
  [Event.lcdClear, Event.lcdString "  New Password  ",
   Event.delay cfg.STAND_PRESENTATION_TIME,
   Event.lcdClear, Event.lcdString "Enter Password", Event.lcdCursor 1 0] ++
  getPasswordTrace cfg r.first.pre r.first.mid ++
  sendCommandTrace cfg cfg.SEND_FIRST_PASSWORD ++
  sendPasswordTrace cfg r.first.password ++
  [Event.lcdClear, Event.lcdString "ReEnter Password", Event.lcdCursor 1 0] ++
  getPasswordTrace cfg r.second.pre r.second.mid ++
  sendCommandTrace cfg cfg.SEND_SECOND_PASSWORD ++
  sendPasswordTrace cfg r.second.password ++
  receiveCommandTrace cfg r.verdict ++
  (if r.verdict = cfg.PASS_MIS_MATCHED then
    [Event.lcdClear, Event.lcdString "MISMATCHED Pass",
     Event.delay cfg.STAND_PRESENTATION_TIME]
   else [])

/-- The keys pressed during a sequence of rounds. -/
def roundsKeys : List Round → List Nat
  | [] => []
  | r :: rs => r.keys ++ roundsKeys rs

/-- What the control MCU sends during a sequence of rounds. -/
def roundsRx (cfg : Config) : List Round → List Nat
  | [] => []
  | r :: rs => r.rx cfg ++ roundsRx cfg rs

/-- The driver calls of a sequence of rounds. -/
def roundsTrace (cfg : Config) : List Round → List Event
  | [] => []
  | r :: rs => r.trace cfg ++ roundsTrace cfg rs

/-- What the control MCU sends during a verification that it answers with the
verdict `v`, without stray bytes. -/
def verificationRx (cfg : Config) (v : Nat) : List Nat :=
  [cfg.READY_TO_RECEIVE, cfg.RECEIVE_DONE, cfg.READY_TO_RECEIVE, cfg.RECEIVE_DONE,
   cfg.READY_TO_SEND, v]

/-- The driver calls of a verification of the entry `e` for the action `a`
answered with the verdict `v`. -/
def verificationTrace (cfg : Config) (a : Nat) (e : Entry) (v : Nat) : List Event :=
  [Event.lcdClear, Event.lcdString "Enter Password :"] ++
  getPasswordTrace cfg e.pre e.mid ++
  sendCommandTrace cfg cfg.SEND_CHECK_PASSWORD ++
  sendPasswordTrace cfg e.password ++
  sendCommandTrace cfg a ++
  receiveCommandTrace cfg v

/-- The state in which the verdict is dispatched, in a pass of the super loop
that starts in `s`, reads the menu key `a` and the entry `e`, and is answered
`v`; `restK` and `restRx` are the inputs left. -/
def afterVerification (cfg : Config) (a : Nat) (e : Entry) (v : Nat)
    (restK restRx : List Nat) (s : St) : St :=
  { s with
    g_inputPassword := e.password
    g_matchStatus := v
    g_command := v
    keys := restK
    rx := restRx
    trace := s.trace ++ menuTrace ++ Event.key a :: verificationTrace cfg a e v }

/-! ## Invariants -/

/-- What every function of the file other than `HMI_wrongPassword` guarantees
between entry and return: the mistake counter and its history variable are
untouched and no byte is put back on the link. -/
def Frame (s s' : St) : Prop :=
  s'.g_passwordMistakes = s.g_passwordMistakes ∧ s'.peakMistakes = s.peakMistakes ∧
    s'.rx.length ≤ s.rx.length

/-- The invariant of the mistake counter at the menu. -/
def MistakesOk (cfg : Config) (s : St) : Prop :=
  s.g_passwordMistakes < cfg.MAX_NUM_OF_MISTAKES ∧ s.peakMistakes ≤ cfg.MAX_NUM_OF_MISTAKES

/-! ## Two nodes on one link -/

/-- Where a node running `HMI_sendCommand` stands. -/
inductive SendPc where
  | sendReady
  | awaitReceiver
  | sendCommand
  | awaitDone
  | returned
deriving DecidableEq

/-- Where a node running `HMI_receiveCommand` stands. -/
inductive RecvPc where
  | awaitSender
  | sendReady
  | readCommand
  | sendDone
  | returned
deriving DecidableEq

/-- Two nodes joined by a lossless, in-order byte link: one runs
`HMI_sendCommand`, the other `HMI_receiveCommand`.  `toReceiver` and `toSender`
are the bytes sent and not yet received in each direction, `g_command` is the
global of the receiving node and `result` the value its call has returned. -/
structure Link where
  sender : SendPc
  receiver : RecvPc
  toReceiver : List Nat
  toSender : List Nat
  g_command : Nat
  result : Option Nat
deriving DecidableEq

/-- One step of the node running `HMI_sendCommand(command)`: one driver call.
`none` when the node cannot move: it waits for a byte that has not arrived, or
its call has returned. -/
def senderStep (cfg : Config) (command : Nat) (l : Link) : Option Link :=
  match l.sender with
  | SendPc.sendReady =>
    some { l with
      toReceiver := l.toReceiver ++ [cfg.READY_TO_SEND % 256]
      sender := SendPc.awaitReceiver }
  | SendPc.awaitReceiver =>
    match l.toSender with
    | [] => none
    | b :: bs =>
      some { l with
        toSender := bs
        sender := if b ≠ cfg.READY_TO_RECEIVE then SendPc.awaitReceiver
          else SendPc.sendCommand }
  | SendPc.sendCommand =>
    some { l with
      toReceiver := l.toReceiver ++ [command % 256]
      sender := SendPc.awaitDone }
  | SendPc.awaitDone =>
    match l.toSender with
    | [] => none
    | b :: bs =>
      some { l with
        toSender := bs
        sender := if b ≠ cfg.RECEIVE_DONE then SendPc.awaitDone else SendPc.returned }
  | SendPc.returned => none

/-- One step of the node running `HMI_receiveCommand()`: one driver call (the
last one together with the return). -/
def receiverStep (cfg : Config) (l : Link) : Option Link :=
  match l.receiver with
  | RecvPc.awaitSender =>
    match l.toReceiver with
    | [] => none
    | b :: bs =>
      some { l with
        toReceiver := bs
        receiver := if b ≠ cfg.READY_TO_SEND then RecvPc.awaitSender else RecvPc.sendReady }
  | RecvPc.sendReady =>
    some { l with
      toSender := l.toSender ++ [cfg.READY_TO_RECEIVE % 256]
      receiver := RecvPc.readCommand }
  | RecvPc.readCommand =>
    match l.toReceiver with
    | [] => none
    | b :: bs => some { l with toReceiver := bs, g_command := b, receiver := RecvPc.sendDone }
  | RecvPc.sendDone =>
    some { l with
      toSender := l.toSender ++ [cfg.RECEIVE_DONE % 256]
      result := some l.g_command
      receiver := RecvPc.returned }
  | RecvPc.returned => none

/-- A step of the pair: the sender moves (`true`) or the receiver does. -/
def linkStep (cfg : Config) (command : Nat) (who : Bool) (l : Link) : Option Link :=
  if who then senderStep cfg command l else receiverStep cfg l

/-- Run a schedule: who moves at each step.  `none` if a node is scheduled that
cannot move. -/
def linkRun (cfg : Config) (command : Nat) : List Bool → Link → Option Link
  | [], l => some l
  | w :: ws, l => (linkStep cfg command w l).bind (linkRun cfg command ws)

/-- Both calls are about to start and the link is empty. -/
def linkStart (g : Nat) : Link :=
  { sender := SendPc.sendReady, receiver := RecvPc.awaitSender, toReceiver := [],
    toSender := [], g_command := g, result := none }

/-- Both calls have returned, the receiver with `c`, and the link is empty. -/
def linkDone (c : Nat) : Link :=
  { sender := SendPc.returned, receiver := RecvPc.returned, toReceiver := [],
    toSender := [], g_command := c, result := some c }

/-- The states of the handshake, in the order in which they occur. -/
def linkChain (cfg : Config) (c g : Nat) : Nat → Link
  | 0 => linkStart g
  | 1 => { linkStart g with sender := SendPc.awaitReceiver, toReceiver := [cfg.READY_TO_SEND] }
  | 2 => { linkStart g with sender := SendPc.awaitReceiver, receiver := RecvPc.sendReady }
  | 3 => { linkStart g with
            sender := SendPc.awaitReceiver, receiver := RecvPc.readCommand,
            toSender := [cfg.READY_TO_RECEIVE] }
  | 4 => { linkStart g with sender := SendPc.sendCommand, receiver := RecvPc.readCommand }
  | 5 => { linkStart g with
            sender := SendPc.awaitDone, receiver := RecvPc.readCommand, toReceiver := [c] }
  | 6 => { linkStart c with sender := SendPc.awaitDone, receiver := RecvPc.sendDone }
  | 7 => { linkDone c with sender := SendPc.awaitDone, toSender := [cfg.RECEIVE_DONE] }
  | _ => linkDone c

/-- The schedule of the handshake: who moves at each of its eight steps. -/
def linkSchedule : List Bool := [true, false, false, true, true, false, false, true]

/-- The node running `HMI_sendCommand(command)` stepped on its own, with the
bytes it will receive already on the link, until its call returns. -/
def senderAlone (cfg : Config) (command : Nat) : Nat → Link → Option Link
  | 0, _ => none
  | n + 1, l =>
    if l.sender = SendPc.returned then some l
    else (senderStep cfg command l).bind (senderAlone cfg command n)

/-- The node running `HMI_receiveCommand()` stepped on its own, with the bytes
it will receive already on the link, until its call returns. -/
def receiverAlone (cfg : Config) : Nat → Link → Option Link
  | 0, _ => none
  | n + 1, l =>
    if l.receiver = RecvPc.returned then some l
    else (receiverStep cfg l).bind (receiverAlone cfg n)

/-! # Lemmas -/

/-! ## Password capture -/

theorem take_set_succ (pw : List Nat) : ∀ (c k : Nat), c < pw.length →
    (pw.set c k).take (c + 1) = pw.take c ++ [k] := by
  induction pw with
  | nil => intro c k h; simp at h
  | cons x xs ih =>
    intro c k h
    cases c with
    | zero => simp
    | succ c =>
      simp only [List.length_cons, Nat.add_lt_add_iff_right] at h
      simp [List.set, ih c k h]

theorem awaitByte_skip (m : Nat) (mid rest : List Nat) (h : m ∉ mid) :
    awaitByte m (mid ++ m :: rest) = some (mid ++ [m], rest) := by
  induction mid with
  | nil => simp [awaitByte]
  | cons b bs ih =>
    simp only [List.mem_cons, not_or] at h
    have hb : b ≠ m := fun e => h.1 e.symm
    simp [awaitByte, hb, ih h.2]

theorem getPassword_fill_spec (cfg : Config) (hN : cfg.PASSWORD_LENGTH < 256)
    (rest : List Nat) :
    ∀ (pre : List Nat) (counter : Nat) (s : St),
      counter + (digitsOf pre).length = cfg.PASSWORD_LENGTH →
      (∀ k ∈ pre.getLast?, k ≤ 9) →
      s.g_inputPassword.length = cfg.PASSWORD_LENGTH →
      s.keys = pre ++ rest →
      getPassword_fill cfg (pre ++ rest) counter s =
        some { s with
          keys := rest
          g_inputPassword := s.g_inputPassword.take counter ++ digitsOf pre
          trace := s.trace ++ fillTrace cfg pre } := by
  intro pre
  induction pre with
  | nil =>
    intro counter s hc _ hlen hk
    obtain ⟨pw, ms, tk, pm, cmd, keys, rx, ton, tr, pk⟩ := s
    simp only [digitsOf, List.filter_nil, List.length_nil, Nat.add_zero] at hc
    simp only [List.nil_append] at hk ⊢
    simp only at hlen hk
    subst hk
    cases keys <;> simp [getPassword_fill, hc, digitsOf, fillTrace, hlen]
  | cons k ks ih =>
    intro counter s hc hlast hlen hk
    obtain ⟨pw, ms, tk, pm, cmd, keys, rx, ton, tr, pk⟩ := s
    simp only at hlen hk
    subst hk
    have hpos : 0 < (digitsOf (k :: ks)).length := by
      by_contra h0
      have hnil : digitsOf (k :: ks) = [] := List.length_eq_zero.mp (by omega)
      have hmem : (k :: ks).getLast (by simp) ∈ k :: ks := List.getLast_mem _
      have h9 : (k :: ks).getLast (by simp) ≤ 9 :=
        hlast _ (by simp [List.getLast?_eq_getLast])
      have : (k :: ks).getLast (by simp) ∈ digitsOf (k :: ks) := by
        simp only [digitsOf, List.mem_filter, decide_eq_true_eq]
        exact ⟨hmem, h9⟩
      rw [hnil] at this
      simp at this
    have hne : counter ≠ cfg.PASSWORD_LENGTH := by omega
    have hlast2 : ∀ x ∈ ks.getLast?, x ≤ 9 := by
      intro x hx
      cases ks with
      | nil => simp at hx
      | cons y ys =>
        apply hlast
        simpa [List.getLast?_cons_cons] using hx
    by_cases hk9 : k ≤ 9
    · have hc2 : counter + 1 + (digitsOf ks).length = cfg.PASSWORD_LENGTH := by
        simp [digitsOf, List.filter_cons, hk9] at hc ⊢
        omega
      have hmod : (counter + 1) % 256 = counter + 1 := Nat.mod_eq_of_lt (by omega)
      have := ih (counter + 1)
        { g_inputPassword := pw.set counter k, g_matchStatus := ms, g_tick := tk,
          g_passwordMistakes := pm, g_command := cmd, keys := ks ++ rest, rx := rx,
          timerOn := ton,
          trace := tr ++ [Event.key k] ++ [Event.lcdChar '*'] ++
            [Event.delay cfg.KEYPAD_CLICK_TIME],
          peakMistakes := pk } hc2 hlast2 (by simpa using hlen) rfl
      rw [show (k :: ks) ++ rest = k :: (ks ++ rest) from rfl]
      simp only [getPassword_fill, hne, hk9, hmod, ne_eq, not_false_eq_true,
        if_true, delay_ms, LCD_displayCharacter, emit]
      rw [this]
      have htake : (pw.set counter k).take (counter + 1) = pw.take counter ++ [k] :=
        take_set_succ pw counter k (by omega)
      simp [htake, digitsOf, List.filter_cons, hk9, fillTrace]
    · have hc2 : counter + (digitsOf ks).length = cfg.PASSWORD_LENGTH := by
        simp [digitsOf, List.filter_cons, hk9] at hc ⊢
        omega
      have := ih counter
        { g_inputPassword := pw, g_matchStatus := ms, g_tick := tk,
          g_passwordMistakes := pm, g_command := cmd, keys := ks ++ rest, rx := rx,
          timerOn := ton,
          trace := tr ++ [Event.key k] ++ [Event.delay cfg.KEYPAD_CLICK_TIME],
          peakMistakes := pk } hc2 hlast2 hlen rfl
      rw [show (k :: ks) ++ rest = k :: (ks ++ rest) from rfl]
      simp only [getPassword_fill, hne, hk9, ne_eq, not_false_eq_true,
        if_true, if_false, delay_ms, emit]
      rw [this]
      simp [digitsOf, List.filter_cons, hk9, fillTrace]

/-- `HMI_getPassword` on a key sequence `pre ++ mid ++ '=' :: rest` in which
`pre` ends with the `PASSWORD_LENGTH`-th digit key and `mid` has no `=`. -/
theorem getPassword_spec (cfg : Config) (hN : cfg.PASSWORD_LENGTH < 256)
    (pre mid rest : List Nat)
    (hcount : (digitsOf pre).length = cfg.PASSWORD_LENGTH)
    (hlast : ∀ k ∈ pre.getLast?, k ≤ 9)
    (hmid : KEY_ENTER ∉ mid)
    (pw : List Nat) (hlen : pw.length = cfg.PASSWORD_LENGTH)
    (ms tk pm cmd : Nat) (rx : List Nat) (ton : Bool) (tr : List Event) (pk : Nat) :
    HMI_getPassword cfg
        { g_inputPassword := pw, g_matchStatus := ms, g_tick := tk,
          g_passwordMistakes := pm, g_command := cmd,
          keys := pre ++ (mid ++ KEY_ENTER :: rest), rx := rx, timerOn := ton,
          trace := tr, peakMistakes := pk } =
      some
        { g_inputPassword := digitsOf pre, g_matchStatus := ms, g_tick := tk,
          g_passwordMistakes := pm, g_command := cmd, keys := rest, rx := rx,
          timerOn := ton, trace := tr ++ getPasswordTrace cfg pre mid,
          peakMistakes := pk } := by
  have h := getPassword_fill_spec cfg hN (mid ++ KEY_ENTER :: rest) pre 0
    { g_inputPassword := pw, g_matchStatus := ms, g_tick := tk,
      g_passwordMistakes := pm, g_command := cmd,
      keys := pre ++ (mid ++ KEY_ENTER :: rest), rx := rx, timerOn := ton,
      trace := tr ++ [Event.lcdCursor 1 0], peakMistakes := pk }
    (by simpa using hcount) hlast hlen rfl
  simp only [HMI_getPassword, LCD_moveCursor, emit, Option.bind_eq_bind, h,
    Option.some_bind, KEYPAD_await, awaitByte_skip KEY_ENTER mid rest hmid, Option.map_some']
  simp [getPasswordTrace]

/-! ## Link handshake and busy-wait -/

theorem sendCommand_spec (cfg : Config) (command : Nat)
    (pw : List Nat) (ms tk pm cmd : Nat) (keys rest : List Nat) (ton : Bool)
    (tr : List Event) (pk : Nat) :
    HMI_sendCommand cfg command
        { g_inputPassword := pw, g_matchStatus := ms, g_tick := tk,
          g_passwordMistakes := pm, g_command := cmd, keys := keys,
          rx := cfg.READY_TO_RECEIVE :: cfg.RECEIVE_DONE :: rest, timerOn := ton,
          trace := tr, peakMistakes := pk } =
      some
        { g_inputPassword := pw, g_matchStatus := ms, g_tick := tk,
          g_passwordMistakes := pm, g_command := cmd, keys := keys, rx := rest,
          timerOn := ton, trace := tr ++ sendCommandTrace cfg command,
          peakMistakes := pk } := by
  simp [HMI_sendCommand, UART_sendByte, UART_await, awaitByte, emit, sendCommandTrace]

theorem receiveCommand_spec (cfg : Config) (v : Nat)
    (pw : List Nat) (ms tk pm cmd : Nat) (keys rest : List Nat) (ton : Bool)
    (tr : List Event) (pk : Nat) :
    HMI_receiveCommand cfg
        { g_inputPassword := pw, g_matchStatus := ms, g_tick := tk,
          g_passwordMistakes := pm, g_command := cmd, keys := keys,
          rx := cfg.READY_TO_SEND :: v :: rest, timerOn := ton,
          trace := tr, peakMistakes := pk } =
      some (v,
        { g_inputPassword := pw, g_matchStatus := ms, g_tick := tk,
          g_passwordMistakes := pm, g_command := v, keys := keys, rx := rest,
          timerOn := ton, trace := tr ++ receiveCommandTrace cfg v,
          peakMistakes := pk }) := by
  simp [HMI_receiveCommand, UART_sendByte, UART_await, awaitByte, emit, UART_recieveByte,
    receiveCommandTrace]

theorem sendPassword_loop_spec (cfg : Config) (hN : cfg.PASSWORD_LENGTH < 256) :
    ∀ (n fuel counter : Nat) (s : St),
      counter + n = cfg.PASSWORD_LENGTH → n < fuel →
      s.g_inputPassword.length = cfg.PASSWORD_LENGTH →
      sendPassword_loop cfg fuel counter s =
        some { s with
          trace := s.trace ++ sendPasswordTrace cfg (s.g_inputPassword.drop counter) } := by
  intro n
  induction n with
  | zero =>
    intro fuel counter s hc hf hlen
    obtain ⟨pw, ms, tk, pm, cmd, keys, rx, ton, tr, pk⟩ := s
    simp only at hlen
    cases fuel with
    | zero => omega
    | succ f =>
      have : ¬ counter < cfg.PASSWORD_LENGTH := by omega
      have hd : List.drop counter pw = [] := List.drop_eq_nil_of_le (by omega)
      simp [sendPassword_loop, this, hd, sendPasswordTrace]
  | succ n ih =>
    intro fuel counter s hc hf hlen
    obtain ⟨pw, ms, tk, pm, cmd, keys, rx, ton, tr, pk⟩ := s
    simp only at hlen
    cases fuel with
    | zero => omega
    | succ f =>
      have hlt : counter < cfg.PASSWORD_LENGTH := by omega
      have hmod : (counter + 1) % 256 = counter + 1 := Nat.mod_eq_of_lt (by omega)
      have hlt2 : counter < pw.length := by omega
      have hd : List.drop counter pw = pw[counter] :: List.drop (counter + 1) pw :=
        List.drop_eq_getElem_cons hlt2
      have hg : pw.getD counter 0 = pw[counter] := by
        simp [List.getD, List.getElem?_eq_getElem hlt2]
      have := ih f (counter + 1)
        { g_inputPassword := pw, g_matchStatus := ms, g_tick := tk,
          g_passwordMistakes := pm, g_command := cmd, keys := keys, rx := rx,
          timerOn := ton,
          trace := tr ++ [Event.uartTx (pw[counter] % 256)] ++
            [Event.delay cfg.SEND_RECEIVE_TIME],
          peakMistakes := pk } (by omega) (by omega) hlen
      rw [sendPassword_loop, if_pos hlt, hmod]
      simp only [delay_ms, UART_sendByte, emit, hg]
      rw [this, hd]
      simp [sendPasswordTrace]

theorem sendPassword_spec (cfg : Config) (hN : cfg.PASSWORD_LENGTH < 256)
    (pw : List Nat) (hlen : pw.length = cfg.PASSWORD_LENGTH)
    (ms tk pm cmd : Nat) (keys rx : List Nat) (ton : Bool) (tr : List Event) (pk : Nat) :
    HMI_sendPassword cfg
        { g_inputPassword := pw, g_matchStatus := ms, g_tick := tk,
          g_passwordMistakes := pm, g_command := cmd, keys := keys, rx := rx,
          timerOn := ton, trace := tr, peakMistakes := pk } =
      some
        { g_inputPassword := pw, g_matchStatus := ms, g_tick := tk,
          g_passwordMistakes := pm, g_command := cmd, keys := keys, rx := rx,
          timerOn := ton, trace := tr ++ sendPasswordTrace cfg pw,
          peakMistakes := pk } := by
  have := sendPassword_loop_spec cfg hN cfg.PASSWORD_LENGTH 257 0
    { g_inputPassword := pw, g_matchStatus := ms, g_tick := tk,
      g_passwordMistakes := pm, g_command := cmd, keys := keys, rx := rx,
      timerOn := ton, trace := tr, peakMistakes := pk } (by omega) (by omega) hlen
  simpa [HMI_sendPassword] using this

/-- A busy-wait `while(g_tick < T);` entered with the timer running and `n` ticks
short of `T` ends after exactly `n` interrupts. -/
theorem spin_lt_spec (T : Nat) (hT : T < 256) :
    ∀ (n fuel : Nat) (pw : List Nat) (ms tk pm cmd : Nat) (keys rx : List Nat)
      (tr : List Event) (pk : Nat),
      tk + n = T → n < fuel →
      spin (fun t => decide (t < T)) fuel
          { g_inputPassword := pw, g_matchStatus := ms, g_tick := tk,
            g_passwordMistakes := pm, g_command := cmd, keys := keys, rx := rx,
            timerOn := true, trace := tr, peakMistakes := pk } =
        some
          { g_inputPassword := pw, g_matchStatus := ms, g_tick := T,
            g_passwordMistakes := pm, g_command := cmd, keys := keys, rx := rx,
            timerOn := true, trace := tr ++ List.replicate n Event.tick,
            peakMistakes := pk } := by
  intro n
  induction n with
  | zero =>
    intro fuel pw ms tk pm cmd keys rx tr pk hc hf
    cases fuel with
    | zero => omega
    | succ f =>
      have : tk = T := by omega
      subst this
      simp [spin]
  | succ n ih =>
    intro fuel pw ms tk pm cmd keys rx tr pk hc hf
    cases fuel with
    | zero => omega
    | succ f =>
      have hlt : tk < T := by omega
      have hmod : (tk + 1) % 256 = tk + 1 := Nat.mod_eq_of_lt (by omega)
      simp only [spin, hlt, decide_True, if_true, interrupt, HMI_TimerCallBackProcessing, emit,
        hmod]
      rw [ih f pw ms (tk + 1) pm cmd keys rx (tr ++ [Event.tick]) pk (by omega) (by omega)]
      simp [List.replicate_succ]

/-- A busy-wait `while(g_tick != T);` entered with the timer running and `n` ticks
short of `T` ends after exactly `n` interrupts. -/
theorem spin_ne_spec (T : Nat) (hT : T < 256) :
    ∀ (n fuel : Nat) (pw : List Nat) (ms tk pm cmd : Nat) (keys rx : List Nat)
      (tr : List Event) (pk : Nat),
      tk + n = T → n < fuel →
      spin (fun t => decide (t ≠ T)) fuel
          { g_inputPassword := pw, g_matchStatus := ms, g_tick := tk,
            g_passwordMistakes := pm, g_command := cmd, keys := keys, rx := rx,
            timerOn := true, trace := tr, peakMistakes := pk } =
        some
          { g_inputPassword := pw, g_matchStatus := ms, g_tick := T,
            g_passwordMistakes := pm, g_command := cmd, keys := keys, rx := rx,
            timerOn := true, trace := tr ++ List.replicate n Event.tick,
            peakMistakes := pk } := by
  intro n
  induction n with
  | zero =>
    intro fuel pw ms tk pm cmd keys rx tr pk hc hf
    cases fuel with
    | zero => omega
    | succ f =>
      have : tk = T := by omega
      subst this
      simp [spin]
  | succ n ih =>
    intro fuel pw ms tk pm cmd keys rx tr pk hc hf
    cases fuel with
    | zero => omega
    | succ f =>
      have hlt : tk ≠ T := by omega
      have hmod : (tk + 1) % 256 = tk + 1 := Nat.mod_eq_of_lt (by omega)
      simp only [spin, hlt, ne_eq, not_false_eq_true, decide_True, if_true, interrupt,
        HMI_TimerCallBackProcessing, emit, hmod]
      rw [ih f pw ms (tk + 1) pm cmd keys rx (tr ++ [Event.tick]) pk (by omega) (by omega)]
      simp [List.replicate_succ]

/-! ## Door sequencer and lockout guard -/

theorem busyWait_lt_spec (T : Nat) (hT : T < 256)
    (pw : List Nat) (ms pm cmd : Nat) (keys rx : List Nat) (tr : List Event) (pk : Nat) :
    busyWait (fun t => decide (t < T))
        { g_inputPassword := pw, g_matchStatus := ms, g_tick := 0,
          g_passwordMistakes := pm, g_command := cmd, keys := keys, rx := rx,
          timerOn := true, trace := tr, peakMistakes := pk } =
      some
        { g_inputPassword := pw, g_matchStatus := ms, g_tick := T,
          g_passwordMistakes := pm, g_command := cmd, keys := keys, rx := rx,
          timerOn := true, trace := tr ++ List.replicate T Event.tick,
          peakMistakes := pk } :=
  spin_lt_spec T hT T 256 pw ms 0 pm cmd keys rx tr pk (by omega) hT

theorem busyWait_ne_spec (T : Nat) (hT : T < 256)
    (pw : List Nat) (ms pm cmd : Nat) (keys rx : List Nat) (tr : List Event) (pk : Nat) :
    busyWait (fun t => decide (t ≠ T))
        { g_inputPassword := pw, g_matchStatus := ms, g_tick := 0,
          g_passwordMistakes := pm, g_command := cmd, keys := keys, rx := rx,
          timerOn := true, trace := tr, peakMistakes := pk } =
      some
        { g_inputPassword := pw, g_matchStatus := ms, g_tick := T,
          g_passwordMistakes := pm, g_command := cmd, keys := keys, rx := rx,
          timerOn := true, trace := tr ++ List.replicate T Event.tick,
          peakMistakes := pk } :=
  spin_ne_spec T hT T 256 pw ms 0 pm cmd keys rx tr pk (by omega) hT

theorem openingDoor_spec (cfg : Config) (hO : cfg.OPEN_DOOR_TIME < 256)
    (hH : cfg.HOLD_DOOR_TIME < 256) (hC : cfg.CLOSE_DOOR_TIME < 256)
    (pw : List Nat) (ms pm cmd : Nat) (keys rx : List Nat) (ton : Bool)
    (tr : List Event) (pk : Nat) :
    HMI_openingDoor cfg
        { g_inputPassword := pw, g_matchStatus := ms, g_tick := 0,
          g_passwordMistakes := pm, g_command := cmd, keys := keys, rx := rx,
          timerOn := ton, trace := tr, peakMistakes := pk } =
      some
        { g_inputPassword := pw, g_matchStatus := ms, g_tick := 0,
          g_passwordMistakes := pm, g_command := cmd, keys := keys, rx := rx,
          timerOn := false, trace := tr ++ doorTrace cfg, peakMistakes := pk } := by
  simp only [HMI_openingDoor, HMI_startTimer, LCD_clearScreen, LCD_displayString, Timer_DeInit,
    emit, Option.bind_eq_bind, Option.pure_def, busyWait_lt_spec _ hO, busyWait_lt_spec _ hH,
    busyWait_lt_spec _ hC, Option.some_bind]
  simp [doorTrace]

theorem ticksIn_doorTrace (cfg : Config) :
    ticksIn (doorTrace cfg) =
      cfg.OPEN_DOOR_TIME + cfg.HOLD_DOOR_TIME + cfg.CLOSE_DOOR_TIME := by
  simp [ticksIn, doorTrace, List.count_replicate, List.count_cons]
  omega

theorem wrongPassword_below (cfg : Config)
    (pw : List Nat) (ms tk pm cmd : Nat) (keys rx : List Nat) (ton : Bool)
    (tr : List Event) (pk : Nat) (h : (pm + 1) % 256 ≠ cfg.MAX_NUM_OF_MISTAKES) :
    HMI_wrongPassword cfg
        { g_inputPassword := pw, g_matchStatus := ms, g_tick := tk,
          g_passwordMistakes := pm, g_command := cmd, keys := keys, rx := rx,
          timerOn := ton, trace := tr, peakMistakes := pk } =
      some
        { g_inputPassword := pw, g_matchStatus := ms, g_tick := tk,
          g_passwordMistakes := (pm + 1) % 256, g_command := cmd, keys := keys, rx := rx,
          timerOn := ton, trace := tr ++ wrongTrace cfg,
          peakMistakes := max pk ((pm + 1) % 256) } := by
  simp [HMI_wrongPassword, countMistake, LCD_clearScreen, LCD_displayString, delay_ms, emit, h,
    wrongTrace]

theorem wrongPassword_lockout (cfg : Config) (hW : cfg.WARNING_TIME < 256)
    (pw : List Nat) (ms pm cmd : Nat) (keys rx : List Nat) (ton : Bool)
    (tr : List Event) (pk : Nat) (h : (pm + 1) % 256 = cfg.MAX_NUM_OF_MISTAKES) :
    HMI_wrongPassword cfg
        { g_inputPassword := pw, g_matchStatus := ms, g_tick := 0,
          g_passwordMistakes := pm, g_command := cmd, keys := keys, rx := rx,
          timerOn := ton, trace := tr, peakMistakes := pk } =
      some
        { g_inputPassword := pw, g_matchStatus := ms, g_tick := 0,
          g_passwordMistakes := 0, g_command := cmd, keys := keys, rx := rx,
          timerOn := false, trace := tr ++ lockoutTrace cfg,
          peakMistakes := max pk cfg.MAX_NUM_OF_MISTAKES } := by
  simp only [HMI_wrongPassword, countMistake, LCD_clearScreen, LCD_displayString, delay_ms,
    HMI_startTimer, Timer_DeInit, emit, h, if_true, Option.bind_eq_bind, Option.pure_def,
    busyWait_ne_spec _ hW, Option.some_bind]
  simp [lockoutTrace]

/-! ## Enrollment -/

theorem newPassword_body_spec (cfg : Config) (hN : cfg.PASSWORD_LENGTH < 256)
    (r : Round) (h1 : r.first.ok cfg) (h2 : r.second.ok cfg)
    (pw : List Nat) (hlen : pw.length = cfg.PASSWORD_LENGTH)
    (ms tk pm cmd : Nat) (restK restRx : List Nat) (ton : Bool) (tr : List Event)
    (pk : Nat) :
    newPassword_body cfg
        { g_inputPassword := pw, g_matchStatus := ms, g_tick := tk,
          g_passwordMistakes := pm, g_command := cmd, keys := r.keys ++ restK,
          rx := r.rx cfg ++ restRx, timerOn := ton, trace := tr, peakMistakes := pk } =
      some
        { g_inputPassword := r.second.password, g_matchStatus := r.verdict, g_tick := tk,
          g_passwordMistakes := pm, g_command := r.verdict, keys := restK, rx := restRx,
          timerOn := ton, trace := tr ++ r.trace cfg, peakMistakes := pk } := by
  obtain ⟨⟨pre1, mid1⟩, ⟨pre2, mid2⟩, v⟩ := r
  obtain ⟨ha1, hb1, hc1⟩ := h1
  obtain ⟨ha2, hb2, hc2⟩ := h2
  simp only at ha1 hb1 hc1 ha2 hb2 hc2
  simp only [newPassword_body, LCD_clearScreen, LCD_displayString, LCD_moveCursor, delay_ms,
    emit, Round.keys, Entry.keys, Round.rx, List.append_assoc, List.cons_append,
    List.nil_append, List.singleton_append, Option.bind_eq_bind, Option.pure_def]
  rw [getPassword_spec cfg hN pre1 mid1 _ ha1 hb1 hc1 pw hlen, Option.some_bind,
    sendCommand_spec, Option.some_bind,
    sendPassword_spec cfg hN _ ha1, Option.some_bind]
  simp only
  rw [getPassword_spec cfg hN pre2 mid2 _ ha2 hb2 hc2 _ ha1, Option.some_bind,
    sendCommand_spec, Option.some_bind,
    sendPassword_spec cfg hN _ ha2, Option.some_bind,
    receiveCommand_spec, Option.some_bind]
  by_cases hv : v = cfg.PASS_MIS_MATCHED
  · simp [Round.trace, Entry.password, hv]
  · simp [Round.trace, Entry.password, hv]

theorem newPassword_loop_spec (cfg : Config) (hN : cfg.PASSWORD_LENGTH < 256)
    (last : Round) (hl1 : last.first.ok cfg) (hl2 : last.second.ok cfg)
    (hlv : last.verdict ≠ cfg.PASS_MIS_MATCHED) (restK restRx : List Nat) :
    ∀ (init : List Round),
      (∀ r ∈ init, r.first.ok cfg ∧ r.second.ok cfg ∧ r.verdict = cfg.PASS_MIS_MATCHED) →
      ∀ (fuel : Nat), init.length + 1 < fuel →
      ∀ (pw : List Nat), pw.length = cfg.PASSWORD_LENGTH →
      ∀ (tk pm cmd : Nat) (ton : Bool) (tr : List Event) (pk : Nat),
      newPassword_loop cfg fuel
          { g_inputPassword := pw, g_matchStatus := cfg.PASS_MIS_MATCHED, g_tick := tk,
            g_passwordMistakes := pm, g_command := cmd,
            keys := roundsKeys (init ++ [last]) ++ restK,
            rx := roundsRx cfg (init ++ [last]) ++ restRx, timerOn := ton, trace := tr,
            peakMistakes := pk } =
        some
          { g_inputPassword := last.second.password, g_matchStatus := last.verdict,
            g_tick := tk, g_passwordMistakes := pm, g_command := last.verdict,
            keys := restK, rx := restRx, timerOn := ton,
            trace := tr ++ roundsTrace cfg (init ++ [last]), peakMistakes := pk } := by
  intro init
  induction init with
  | nil =>
    intro _ fuel hf pw hlen tk pm cmd ton tr pk
    obtain ⟨f, rfl⟩ : ∃ f, fuel = f + 2 := ⟨fuel - 2, by simp at hf; omega⟩
    simp only [List.nil_append, roundsKeys, roundsRx, roundsTrace, List.append_nil]
    rw [newPassword_loop, if_pos rfl,
      newPassword_body_spec cfg hN last hl1 hl2 pw hlen, Option.some_bind,
      newPassword_loop, if_neg hlv]
  | cons r rs ih =>
    intro hall fuel hf pw hlen tk pm cmd ton tr pk
    obtain ⟨f, rfl⟩ : ∃ f, fuel = f + 1 := ⟨fuel - 1, by simp at hf; omega⟩
    obtain ⟨hr1, hr2, hrv⟩ := hall r (List.mem_cons_self _ _)
    have hall2 : ∀ x ∈ rs, x.first.ok cfg ∧ x.second.ok cfg ∧
        x.verdict = cfg.PASS_MIS_MATCHED := fun x hx => hall x (List.mem_cons_of_mem _ hx)
    simp only [List.cons_append, roundsKeys, roundsRx, roundsTrace, List.append_assoc]
    rw [newPassword_loop, if_pos rfl,
      newPassword_body_spec cfg hN r hr1 hr2 pw hlen, Option.some_bind, hrv]
    have := ih hall2 f (by simp at hf; omega) r.second.password hr2.1 tk pm
      cfg.PASS_MIS_MATCHED ton (tr ++ r.trace cfg) pk
    simp only [List.append_assoc] at this
    exact this

/-! ## Frame: what the functions leave alone -/

theorem Frame.refl (s : St) : Frame s s := ⟨rfl, rfl, le_refl _⟩

theorem Frame.trans {a b c : St} (h1 : Frame a b) (h2 : Frame b c) : Frame a c :=
  ⟨h2.1.trans h1.1, h2.2.1.trans h1.2.1, le_trans h2.2.2 h1.2.2⟩

theorem frame_emit (e : Event) (s : St) : Frame s (emit e s) := ⟨rfl, rfl, le_refl _⟩

theorem awaitByte_length (m : Nat) :
    ∀ (l : List Nat) (r : List Nat × List Nat), awaitByte m l = some r →
      r.2.length < l.length := by
  intro l
  induction l with
  | nil => intro r h; simp [awaitByte] at h
  | cons b bs ih =>
    intro r h
    by_cases hb : b = m
    · simp [awaitByte, hb] at h
      subst h
      simp
    · simp only [awaitByte, ne_eq, hb, not_false_eq_true, if_true, Option.map_eq_some'] at h
      obtain ⟨r', hr', rfl⟩ := h
      have := ih r' hr'
      simp only [List.length_cons]
      omega

theorem frame_UART_await (m : Nat) (s s' : St) (h : UART_await m s = some s') :
    Frame s s' ∧ s'.rx.length < s.rx.length := by
  simp only [UART_await, Option.map_eq_some'] at h
  obtain ⟨r, hr, rfl⟩ := h
  have := awaitByte_length m _ _ hr
  exact ⟨⟨rfl, rfl, le_of_lt this⟩, this⟩

theorem frame_KEYPAD_await (m : Nat) (s s' : St) (h : KEYPAD_await m s = some s') :
    Frame s s' := by
  simp only [KEYPAD_await, Option.map_eq_some'] at h
  obtain ⟨r, _, rfl⟩ := h
  exact ⟨rfl, rfl, le_refl _⟩

theorem frame_getPassword_fill (cfg : Config) :
    ∀ (ks : List Nat) (counter : Nat) (s s' : St),
      getPassword_fill cfg ks counter s = some s' → Frame s s' := by
  intro ks
  induction ks with
  | nil =>
    intro counter s s' h
    by_cases hc : counter = cfg.PASSWORD_LENGTH
    · simp [getPassword_fill, hc] at h
      subst h
      exact Frame.refl _
    · simp [getPassword_fill, hc] at h
  | cons k ks ih =>
    intro counter s s' h
    by_cases hc : counter = cfg.PASSWORD_LENGTH
    · simp [getPassword_fill, hc] at h
      subst h
      exact Frame.refl _
    · by_cases hk : k ≤ 9
      · simp only [getPassword_fill, ne_eq, hc, not_false_eq_true, if_true, hk] at h
        have hrec := ih _ _ _ h
        exact Frame.trans ⟨rfl, rfl, le_refl _⟩ hrec
      · simp only [getPassword_fill, ne_eq, hc, not_false_eq_true, if_true, hk, if_false] at h
        have hrec := ih _ _ _ h
        exact Frame.trans ⟨rfl, rfl, le_refl _⟩ hrec

theorem frame_getPassword (cfg : Config) (s s' : St) (h : HMI_getPassword cfg s = some s') :
    Frame s s' := by
  simp only [HMI_getPassword, Option.bind_eq_bind, Option.bind_eq_some] at h
  obtain ⟨s1, h1, h2⟩ := h
  exact Frame.trans (Frame.trans (frame_emit _ s) (frame_getPassword_fill cfg _ _ _ _ h1))
    (frame_KEYPAD_await _ _ _ h2)

theorem frame_sendCommand (cfg : Config) (c : Nat) (s s' : St)
    (h : HMI_sendCommand cfg c s = some s') :
    Frame s s' ∧ s'.rx.length < s.rx.length := by
  simp only [HMI_sendCommand, Option.bind_eq_bind, Option.bind_eq_some] at h
  obtain ⟨s1, h1, h2⟩ := h
  obtain ⟨f1, l1⟩ := frame_UART_await _ _ _ h1
  obtain ⟨f2, l2⟩ := frame_UART_await _ _ _ h2
  refine ⟨Frame.trans (Frame.trans (frame_emit _ s) f1) (Frame.trans (frame_emit _ s1) f2), ?_⟩
  have e1 : (UART_sendByte cfg.READY_TO_SEND s).rx = s.rx := rfl
  have e2 : (UART_sendByte c s1).rx = s1.rx := rfl
  rw [e1] at l1
  rw [e2] at l2
  omega

theorem frame_receiveCommand (cfg : Config) (s s' : St) (v : Nat)
    (h : HMI_receiveCommand cfg s = some (v, s')) :
    Frame s s' ∧ s'.rx.length < s.rx.length := by
  simp only [HMI_receiveCommand, Option.bind_eq_bind, Option.bind_eq_some, Option.pure_def,
    Option.some.injEq, Prod.mk.injEq] at h
  obtain ⟨s1, h1, ⟨b, s2⟩, h2, -, rfl⟩ := h
  obtain ⟨f1, l1⟩ := frame_UART_await _ _ _ h1
  have e1 : (UART_sendByte cfg.READY_TO_RECEIVE s1).rx = s1.rx := rfl
  simp only [UART_recieveByte, e1] at h2
  cases hrx : s1.rx with
  | nil => simp [hrx] at h2
  | cons x xs =>
    simp only [hrx, Option.some.injEq, Prod.mk.injEq] at h2
    obtain ⟨-, rfl⟩ := h2
    have hf1 := f1.1
    have hf2 := f1.2.1
    have hf3 := f1.2.2
    refine ⟨⟨hf1, hf2, ?_⟩, ?_⟩
    · show xs.length ≤ s.rx.length
      rw [hrx] at l1
      simp only [List.length_cons] at l1
      omega
    · show xs.length < s.rx.length
      rw [hrx] at l1
      simp only [List.length_cons] at l1
      omega

theorem frame_sendPassword_loop (cfg : Config) :
    ∀ (fuel counter : Nat) (s s' : St),
      sendPassword_loop cfg fuel counter s = some s' → Frame s s' := by
  intro fuel
  induction fuel with
  | zero => intro counter s s' h; simp [sendPassword_loop] at h
  | succ f ih =>
    intro counter s s' h
    by_cases hc : counter < cfg.PASSWORD_LENGTH
    · rw [sendPassword_loop, if_pos hc] at h
      have hrec := ih _ _ _ h
      exact Frame.trans ⟨rfl, rfl, le_refl _⟩ hrec
    · rw [sendPassword_loop, if_neg hc] at h
      simp only [Option.some.injEq] at h
      subst h
      exact Frame.refl _

theorem frame_sendPassword (cfg : Config) (s s' : St) (h : HMI_sendPassword cfg s = some s') :
    Frame s s' :=
  frame_sendPassword_loop cfg _ _ _ _ h

theorem frame_spin (cond : Nat → Bool) :
    ∀ (fuel : Nat) (s s' : St), spin cond fuel s = some s' → Frame s s' := by
  intro fuel
  induction fuel with
  | zero => intro s s' h; simp [spin] at h
  | succ f ih =>
    intro s s' h
    by_cases hc : cond s.g_tick = true
    · by_cases ht : s.timerOn = true
      · simp only [spin, hc, ht, if_true] at h
        have hrec := ih _ _ h
        exact Frame.trans ⟨rfl, rfl, le_refl _⟩ hrec
      · simp [spin, hc, ht] at h
    · simp only [spin, hc, Bool.false_eq_true, if_false, Option.some.injEq] at h
      subst h
      exact Frame.refl _

theorem frame_openingDoor (cfg : Config) (s s' : St) (h : HMI_openingDoor cfg s = some s') :
    Frame s s' := by
  simp only [HMI_openingDoor, Option.bind_eq_bind, Option.bind_eq_some, Option.pure_def,
    Option.some.injEq, busyWait] at h
  obtain ⟨s1, h1, s2, h2, s3, h3, rfl⟩ := h
  have f1 := frame_spin _ _ _ _ h1
  have f2 := frame_spin _ _ _ _ h2
  have f3 := frame_spin _ _ _ _ h3
  simp only [Frame, LCD_clearScreen, LCD_displayString, HMI_startTimer, Timer_DeInit, emit]
    at f1 f2 f3 ⊢
  omega

theorem frame_newPassword_body (cfg : Config) (s s' : St)
    (h : newPassword_body cfg s = some s') :
    Frame s s' ∧ s'.rx.length < s.rx.length := by
  simp only [newPassword_body, Option.bind_eq_bind, Option.bind_eq_some, Option.pure_def] at h
  obtain ⟨s1, h1, s2, h2, s3, h3, s4, h4, s5, h5, s6, h6, ⟨v, s7⟩, h7, h8⟩ := h
  have f1 := frame_getPassword _ _ _ h1
  obtain ⟨f2, l2⟩ := frame_sendCommand _ _ _ _ h2
  have f3 := frame_sendPassword _ _ _ h3
  have f4 := frame_getPassword _ _ _ h4
  obtain ⟨f5, l5⟩ := frame_sendCommand _ _ _ _ h5
  have f6 := frame_sendPassword _ _ _ h6
  obtain ⟨f7, l7⟩ := frame_receiveCommand _ _ _ _ h7
  by_cases hv : v = cfg.PASS_MIS_MATCHED
  · simp only [hv, if_true, Option.some.injEq] at h8
    subst h8
    simp only [Frame, LCD_clearScreen, LCD_displayString, LCD_moveCursor, delay_ms, emit]
      at f1 f2 f3 f4 f5 f6 f7 l2 l5 l7 ⊢
    omega
  · simp only [hv, if_false, Option.some.injEq] at h8
    subst h8
    simp only [Frame, LCD_clearScreen, LCD_displayString, LCD_moveCursor, delay_ms, emit]
      at f1 f2 f3 f4 f5 f6 f7 l2 l5 l7 ⊢
    omega

theorem frame_newPassword_loop (cfg : Config) :
    ∀ (fuel : Nat) (s s' : St), newPassword_loop cfg fuel s = some s' → Frame s s' := by
  intro fuel
  induction fuel with
  | zero => intro s s' h; simp [newPassword_loop] at h
  | succ f ih =>
    intro s s' h
    by_cases hm : s.g_matchStatus = cfg.PASS_MIS_MATCHED
    · rw [newPassword_loop, if_pos hm, Option.bind_eq_some] at h
      obtain ⟨s1, h1, h2⟩ := h
      exact Frame.trans (frame_newPassword_body cfg _ _ h1).1 (ih _ _ h2)
    · rw [newPassword_loop, if_neg hm] at h
      simp only [Option.some.injEq] at h
      subst h
      exact Frame.refl _

theorem frame_newPassword (cfg : Config) (s s' : St) (h : HMI_newPassword cfg s = some s') :
    Frame s s' := by
  have := frame_newPassword_loop cfg _ _ _ h
  simp only [Frame] at this ⊢
  exact this

theorem frame_verification (cfg : Config) (a : Nat) (s s' : St)
    (h : verification cfg a s = some s') : Frame s s' := by
  simp only [verification, HMI_promptPassword, Option.bind_eq_bind, Option.bind_eq_some,
    Option.pure_def, Option.some.injEq] at h
  obtain ⟨s1, h1, s2, h2, s3, h3, s4, h4, ⟨v, s5⟩, h5, rfl⟩ := h
  have f1 := frame_getPassword _ _ _ h1
  obtain ⟨f2, -⟩ := frame_sendCommand _ _ _ _ h2
  have f3 := frame_sendPassword _ _ _ h3
  obtain ⟨f4, -⟩ := frame_sendCommand _ _ _ _ h4
  obtain ⟨f5, -⟩ := frame_receiveCommand _ _ _ _ h5
  simp only [Frame, LCD_clearScreen, LCD_displayString, emit] at f1 f2 f3 f4 f5 ⊢
  omega

/-- The loop of `HMI_newPassword` returns only on a verdict other than
`PASS_MIS_MATCHED`. -/
theorem newPassword_loop_exit (cfg : Config) :
    ∀ (fuel : Nat) (s s' : St), newPassword_loop cfg fuel s = some s' →
      s'.g_matchStatus ≠ cfg.PASS_MIS_MATCHED := by
  intro fuel
  induction fuel with
  | zero => intro s s' h; simp [newPassword_loop] at h
  | succ f ih =>
    intro s s' h
    by_cases hm : s.g_matchStatus = cfg.PASS_MIS_MATCHED
    · rw [newPassword_loop, if_pos hm, Option.bind_eq_some] at h
      obtain ⟨s1, -, h2⟩ := h
      exact ih _ _ h2
    · rw [newPassword_loop, if_neg hm] at h
      simp only [Option.some.injEq] at h
      subst h
      exact hm

/-- The fuel of `newPassword_loop` is never what stops it: any two amounts above
the number of bytes left on the link give the same run. -/
theorem newPassword_loop_fuel (cfg : Config) :
    ∀ (n m : Nat) (s : St), s.rx.length < n → s.rx.length < m →
      newPassword_loop cfg n s = newPassword_loop cfg m s := by
  intro n
  induction n with
  | zero => intro m s hn; omega
  | succ n ih =>
    intro m s hn hm
    obtain ⟨m, rfl⟩ : ∃ k, m = k + 1 := ⟨m - 1, by omega⟩
    by_cases hs : s.g_matchStatus = cfg.PASS_MIS_MATCHED
    · rw [newPassword_loop, newPassword_loop, if_pos hs, if_pos hs]
      cases hb : newPassword_body cfg s with
      | none => rfl
      | some s1 =>
        have := (frame_newPassword_body cfg s s1 hb).2
        simp only [Option.some_bind]
        exact ih m s1 (by omega) (by omega)
    · rw [newPassword_loop, newPassword_loop, if_neg hs, if_neg hs]

/-! ## Enrollment rounds -/

theorem roundsStarted_append (a b : List Event) :
    roundsStarted (a ++ b) = roundsStarted a + roundsStarted b := by
  simp [roundsStarted]

theorem roundsStarted_fillTrace (cfg : Config) (ks : List Nat) :
    roundsStarted (fillTrace cfg ks) = 0 := by
  induction ks with
  | nil => simp [roundsStarted, fillTrace]
  | cons k ks ih =>
    rw [fillTrace, roundsStarted_append, ih]
    by_cases hk : k ≤ 9 <;> simp [roundsStarted, hk, List.count_cons]

theorem roundsStarted_keys (ks : List Nat) : roundsStarted (ks.map Event.key) = 0 := by
  induction ks with
  | nil => simp [roundsStarted]
  | cons k ks ih =>
    simp only [roundsStarted] at ih
    simp [roundsStarted, List.count_cons, ih]

theorem roundsStarted_getPasswordTrace (cfg : Config) (pre mid : List Nat) :
    roundsStarted (getPasswordTrace cfg pre mid) = 0 := by
  have h1 := roundsStarted_fillTrace cfg pre
  have h2 := roundsStarted_keys (mid ++ [KEY_ENTER])
  have h3 : roundsStarted [Event.lcdCursor 1 0] = 0 := by simp [roundsStarted]
  rw [getPasswordTrace, show Event.lcdCursor 1 0 :: fillTrace cfg pre ++
      List.map Event.key (mid ++ [KEY_ENTER]) =
    [Event.lcdCursor 1 0] ++ fillTrace cfg pre ++ List.map Event.key (mid ++ [KEY_ENTER])
    from rfl, roundsStarted_append, roundsStarted_append, h1, h2, h3]

theorem roundsStarted_sendPasswordTrace (cfg : Config) (p : List Nat) :
    roundsStarted (sendPasswordTrace cfg p) = 0 := by
  induction p with
  | nil => simp [roundsStarted, sendPasswordTrace]
  | cons b bs ih =>
    simp only [roundsStarted] at ih
    simp [roundsStarted, sendPasswordTrace, List.count_cons, ih]

theorem roundsStarted_round (cfg : Config) (r : Round) :
    roundsStarted (r.trace cfg) = 1 := by
  simp only [Round.trace, roundsStarted_append, roundsStarted_getPasswordTrace,
    roundsStarted_sendPasswordTrace]
  by_cases hv : r.verdict = cfg.PASS_MIS_MATCHED <;>
    simp [roundsStarted, hv, sendCommandTrace, receiveCommandTrace, List.count_cons]

theorem roundsStarted_roundsTrace (cfg : Config) (rs : List Round) :
    roundsStarted (roundsTrace cfg rs) = rs.length := by
  induction rs with
  | nil => simp [roundsStarted, roundsTrace]
  | cons r rs ih =>
    rw [roundsTrace, roundsStarted_append, roundsStarted_round, ih, List.length_cons]
    omega

theorem roundsRx_length (cfg : Config) (rs : List Round) :
    (roundsRx cfg rs).length = 6 * rs.length := by
  induction rs with
  | nil => simp [roundsRx]
  | cons r rs ih =>
    simp only [roundsRx, List.length_append, ih, Round.rx, List.length_cons, List.length_nil]
    omega

theorem newPassword_spec (cfg : Config) (hN : cfg.PASSWORD_LENGTH < 256)
    (hM : cfg.PASS_MIS_MATCHED < 256)
    (init : List Round) (last : Round)
    (hinit : ∀ r ∈ init,
      r.first.ok cfg ∧ r.second.ok cfg ∧ r.verdict = cfg.PASS_MIS_MATCHED)
    (hl1 : last.first.ok cfg) (hl2 : last.second.ok cfg)
    (hlv : last.verdict ≠ cfg.PASS_MIS_MATCHED) (restK restRx : List Nat)
    (pw : List Nat) (hlen : pw.length = cfg.PASSWORD_LENGTH)
    (ms tk pm cmd : Nat) (ton : Bool) (tr : List Event) (pk : Nat) :
    HMI_newPassword cfg
        { g_inputPassword := pw, g_matchStatus := ms, g_tick := tk,
          g_passwordMistakes := pm, g_command := cmd,
          keys := roundsKeys (init ++ [last]) ++ restK,
          rx := roundsRx cfg (init ++ [last]) ++ restRx, timerOn := ton, trace := tr,
          peakMistakes := pk } =
      some
        { g_inputPassword := last.second.password, g_matchStatus := last.verdict,
          g_tick := tk, g_passwordMistakes := pm, g_command := last.verdict,
          keys := restK, rx := restRx, timerOn := ton,
          trace := tr ++ roundsTrace cfg (init ++ [last]), peakMistakes := pk } := by
  simp only [HMI_newPassword, Nat.mod_eq_of_lt hM]
  exact newPassword_loop_spec cfg hN last hl1 hl2 hlv restK restRx init hinit _
    (by simp [roundsRx_length]; omega) pw hlen tk pm cmd ton tr pk

/-! ## Verification and the session loop -/

theorem verification_spec (cfg : Config) (hN : cfg.PASSWORD_LENGTH < 256)
    (a : Nat) (e : Entry) (he : e.ok cfg) (v : Nat)
    (pw : List Nat) (hlen : pw.length = cfg.PASSWORD_LENGTH)
    (ms tk pm cmd : Nat) (restK restRx : List Nat) (ton : Bool) (tr : List Event)
    (pk : Nat) :
    verification cfg a
        { g_inputPassword := pw, g_matchStatus := ms, g_tick := tk,
          g_passwordMistakes := pm, g_command := cmd, keys := e.keys ++ restK,
          rx := verificationRx cfg v ++ restRx, timerOn := ton, trace := tr,
          peakMistakes := pk } =
      some
        { g_inputPassword := e.password, g_matchStatus := v, g_tick := tk,
          g_passwordMistakes := pm, g_command := v, keys := restK, rx := restRx,
          timerOn := ton, trace := tr ++ verificationTrace cfg a e v,
          peakMistakes := pk } := by
  obtain ⟨pre, mid⟩ := e
  obtain ⟨ha, hb, hc⟩ := he
  simp only at ha hb hc
  simp only [verification, HMI_promptPassword, LCD_clearScreen, LCD_displayString, emit,
    Entry.keys, verificationRx, List.append_assoc, List.cons_append, List.nil_append,
    List.singleton_append, Option.bind_eq_bind, Option.pure_def]
  rw [getPassword_spec cfg hN pre mid _ ha hb hc pw hlen, Option.some_bind,
    sendCommand_spec, Option.some_bind,
    sendPassword_spec cfg hN _ ha, Option.some_bind,
    sendCommand_spec, Option.some_bind,
    receiveCommand_spec, Option.some_bind]
  simp [verificationTrace, Entry.password]

theorem superLoop_body_open (cfg : Config) (hN : cfg.PASSWORD_LENGTH < 256)
    (e : Entry) (he : e.ok cfg) (v : Nat) (restK restRx : List Nat)
    (s : St) (hlen : s.g_inputPassword.length = cfg.PASSWORD_LENGTH)
    (hkeys : s.keys = cfg.OPEN_DOOR :: e.keys ++ restK)
    (hrx : s.rx = verificationRx cfg v ++ restRx) :
    superLoop_body cfg s =
      dispatchOpen cfg (afterVerification cfg cfg.OPEN_DOOR e v restK restRx s) := by
  obtain ⟨pw, ms, tk, pm, cmd, keys, rx, ton, tr, pk⟩ := s
  simp only at hlen hkeys hrx
  subst hkeys hrx
  simp only [superLoop_body, HMI_mainOptions, LCD_clearScreen, LCD_displayString,
    LCD_moveCursor, KEYPAD_getPressedKey, emit, Option.bind_eq_bind, Option.some_bind,
    List.cons_append, if_true]
  rw [verification_spec cfg hN cfg.OPEN_DOOR e he v pw hlen, Option.some_bind]
  simp [afterVerification, menuTrace]

theorem superLoop_body_change (cfg : Config) (hN : cfg.PASSWORD_LENGTH < 256)
    (hne : cfg.CHANGE_PASSWORD ≠ cfg.OPEN_DOOR)
    (e : Entry) (he : e.ok cfg) (v : Nat) (restK restRx : List Nat)
    (s : St) (hlen : s.g_inputPassword.length = cfg.PASSWORD_LENGTH)
    (hkeys : s.keys = cfg.CHANGE_PASSWORD :: e.keys ++ restK)
    (hrx : s.rx = verificationRx cfg v ++ restRx) :
    superLoop_body cfg s =
      dispatchChange cfg (afterVerification cfg cfg.CHANGE_PASSWORD e v restK restRx s) := by
  obtain ⟨pw, ms, tk, pm, cmd, keys, rx, ton, tr, pk⟩ := s
  simp only at hlen hkeys hrx
  subst hkeys hrx
  simp only [superLoop_body, HMI_mainOptions, LCD_clearScreen, LCD_displayString,
    LCD_moveCursor, KEYPAD_getPressedKey, emit, Option.bind_eq_bind, Option.some_bind,
    List.cons_append, if_true, hne, if_false]
  rw [verification_spec cfg hN cfg.CHANGE_PASSWORD e he v pw hlen, Option.some_bind]
  simp [afterVerification, menuTrace]

theorem txBytes_append (a b : List Event) : txBytes (a ++ b) = txBytes a ++ txBytes b := by
  induction a with
  | nil => rfl
  | cons e es ih => cases e <;> simp [txBytes, ih]

theorem txBytes_fillTrace (cfg : Config) (ks : List Nat) : txBytes (fillTrace cfg ks) = [] := by
  induction ks with
  | nil => rfl
  | cons k ks ih =>
    rw [fillTrace, txBytes_append, ih]
    by_cases hk : k ≤ 9 <;> simp [hk, txBytes]

theorem txBytes_keys (ks : List Nat) : txBytes (ks.map Event.key) = [] := by
  induction ks with
  | nil => rfl
  | cons k ks ih => simp [txBytes, ih]

theorem txBytes_getPasswordTrace (cfg : Config) (pre mid : List Nat) :
    txBytes (getPasswordTrace cfg pre mid) = [] := by
  rw [getPasswordTrace, show Event.lcdCursor 1 0 :: fillTrace cfg pre ++
      List.map Event.key (mid ++ [KEY_ENTER]) =
    [Event.lcdCursor 1 0] ++ fillTrace cfg pre ++ List.map Event.key (mid ++ [KEY_ENTER])
    from rfl, txBytes_append, txBytes_append, txBytes_fillTrace, txBytes_keys]
  rfl

theorem txBytes_sendPasswordTrace (cfg : Config) (p : List Nat) (hp : ∀ d ∈ p, d ≤ 9) :
    txBytes (sendPasswordTrace cfg p) = p := by
  induction p with
  | nil => rfl
  | cons b bs ih =>
    have hb : b ≤ 9 := hp b (List.mem_cons_self _ _)
    have hmod : b % 256 = b := Nat.mod_eq_of_lt (by omega)
    simp only [sendPasswordTrace, txBytes, hmod, List.cons.injEq, true_and]
    exact ih fun d hd => hp d (List.mem_cons_of_mem _ hd)

theorem linkTraffic_append (a b : List Event) :
    linkTraffic (a ++ b) = linkTraffic a ++ linkTraffic b := by
  simp [linkTraffic]

theorem linkTraffic_fillTrace (cfg : Config) (ks : List Nat) :
    linkTraffic (fillTrace cfg ks) = [] := by
  induction ks with
  | nil => rfl
  | cons k ks ih =>
    rw [fillTrace, linkTraffic_append, ih]
    by_cases hk : k ≤ 9 <;> simp [hk, linkTraffic]

theorem linkTraffic_keys (ks : List Nat) : linkTraffic (ks.map Event.key) = [] := by
  induction ks with
  | nil => rfl
  | cons k ks ih =>
    simp only [linkTraffic] at ih
    simp [linkTraffic, ih]

theorem linkTraffic_getPasswordTrace (cfg : Config) (pre mid : List Nat) :
    linkTraffic (getPasswordTrace cfg pre mid) = [] := by
  rw [getPasswordTrace, show Event.lcdCursor 1 0 :: fillTrace cfg pre ++
      List.map Event.key (mid ++ [KEY_ENTER]) =
    [Event.lcdCursor 1 0] ++ fillTrace cfg pre ++ List.map Event.key (mid ++ [KEY_ENTER])
    from rfl, linkTraffic_append, linkTraffic_append, linkTraffic_fillTrace, linkTraffic_keys]
  rfl

theorem linkTraffic_sendPasswordTrace (cfg : Config) (p : List Nat) (hp : ∀ d ∈ p, d ≤ 9) :
    linkTraffic (sendPasswordTrace cfg p) = p.map Event.uartTx := by
  induction p with
  | nil => rfl
  | cons b bs ih =>
    have hb : b ≤ 9 := hp b (List.mem_cons_self _ _)
    have hmod : b % 256 = b := Nat.mod_eq_of_lt (by omega)
    have := ih fun d hd => hp d (List.mem_cons_of_mem _ hd)
    simp only [linkTraffic] at this
    simp [sendPasswordTrace, linkTraffic, hmod, this]

theorem digitsOf_le (ks : List Nat) : ∀ d ∈ digitsOf ks, d ≤ 9 := by
  intro d hd
  simp only [digitsOf, List.mem_filter, decide_eq_true_eq] at hd
  exact hd.2

/-! ## Wire trace of a verification -/

theorem txBytes_verificationTrace (cfg : Config) (a : Nat) (e : Entry) (v : Nat) :
    txBytes (verificationTrace cfg a e v) =
      [cfg.READY_TO_SEND % 256, cfg.SEND_CHECK_PASSWORD % 256] ++ e.password ++
        [cfg.READY_TO_SEND % 256, a % 256, cfg.READY_TO_RECEIVE % 256,
         cfg.RECEIVE_DONE % 256] := by
  have h1 : txBytes [Event.lcdClear, Event.lcdString "Enter Password :"] = [] := rfl
  have h2 : ∀ c, txBytes (sendCommandTrace cfg c) =
      [cfg.READY_TO_SEND % 256, c % 256] := fun _ => rfl
  have h3 : txBytes (receiveCommandTrace cfg v) =
      [cfg.READY_TO_RECEIVE % 256, cfg.RECEIVE_DONE % 256] := rfl
  rw [verificationTrace, txBytes_append, txBytes_append, txBytes_append, txBytes_append,
    txBytes_append, h1, h2, h2, h3, txBytes_getPasswordTrace,
    txBytes_sendPasswordTrace cfg e.password (digitsOf_le e.pre)]
  simp

theorem linkTraffic_verificationTrace (cfg : Config) (a : Nat) (e : Entry) (v : Nat) :
    linkTraffic (verificationTrace cfg a e v) =
      [Event.uartTx (cfg.READY_TO_SEND % 256), Event.uartRx cfg.READY_TO_RECEIVE,
        Event.uartTx (cfg.SEND_CHECK_PASSWORD % 256), Event.uartRx cfg.RECEIVE_DONE] ++
      e.password.map Event.uartTx ++
      [Event.uartTx (cfg.READY_TO_SEND % 256), Event.uartRx cfg.READY_TO_RECEIVE,
        Event.uartTx (a % 256), Event.uartRx cfg.RECEIVE_DONE,
        Event.uartRx cfg.READY_TO_SEND, Event.uartTx (cfg.READY_TO_RECEIVE % 256),
        Event.uartRx v, Event.uartTx (cfg.RECEIVE_DONE % 256)] := by
  have h1 : linkTraffic [Event.lcdClear, Event.lcdString "Enter Password :"] = [] := rfl
  have h2 : ∀ c, linkTraffic (sendCommandTrace cfg c) = sendCommandTrace cfg c := fun _ => rfl
  have h3 : linkTraffic (receiveCommandTrace cfg v) = receiveCommandTrace cfg v := rfl
  rw [verificationTrace, linkTraffic_append, linkTraffic_append, linkTraffic_append,
    linkTraffic_append, linkTraffic_append, h1, h2, h2, h3, linkTraffic_getPasswordTrace,
    linkTraffic_sendPasswordTrace cfg e.password (digitsOf_le e.pre)]
  simp [sendCommandTrace, receiveCommandTrace]

/-! ## Dispatch of the verdict and the mistake counter -/

theorem MistakesOk.of_frame {cfg : Config} {s s' : St} (h : MistakesOk cfg s)
    (f : Frame s s') : MistakesOk cfg s' := by
  obtain ⟨f1, f2, -⟩ := f
  unfold MistakesOk at *
  rw [f1, f2]
  exact h

theorem wrongPassword_inv (cfg : Config) (s s' : St) (h : HMI_wrongPassword cfg s = some s')
    (hs : MistakesOk cfg s) : MistakesOk cfg s' := by
  obtain ⟨h1, h2⟩ := hs
  have hle : (s.g_passwordMistakes + 1) % 256 ≤ s.g_passwordMistakes + 1 := Nat.mod_le _ _
  by_cases hm : (s.g_passwordMistakes + 1) % 256 = cfg.MAX_NUM_OF_MISTAKES
  · simp only [HMI_wrongPassword, countMistake, LCD_clearScreen, LCD_displayString, delay_ms,
      emit, hm, if_true, Option.bind_eq_bind, Option.bind_eq_some, Option.pure_def,
      Option.some.injEq, busyWait] at h
    obtain ⟨s1, hs1, rfl⟩ := h
    have f := frame_spin _ _ _ _ hs1
    simp only [Frame, HMI_startTimer, LCD_clearScreen, LCD_displayString, emit] at f
    simp only [MistakesOk, LCD_clearScreen, Timer_DeInit, emit]
    refine ⟨by omega, ?_⟩
    rw [f.2.1]
    exact max_le h2 (le_refl _)
  · simp only [HMI_wrongPassword, countMistake, LCD_clearScreen, LCD_displayString, delay_ms,
      emit, hm, if_false, Option.bind_eq_bind, Option.pure_def, Option.some.injEq] at h
    subst h
    simp only [MistakesOk]
    refine ⟨by omega, max_le h2 (by omega)⟩

theorem superLoop_body_inv (cfg : Config) (s s' : St) (h : superLoop_body cfg s = some s')
    (hs : MistakesOk cfg s) : MistakesOk cfg s' := by
  simp only [superLoop_body, Option.bind_eq_bind, Option.bind_eq_some, Option.pure_def] at h
  obtain ⟨⟨k, s0⟩, hk, h⟩ := h
  have hs0 : MistakesOk cfg s0 := by
    simp only [KEYPAD_getPressedKey, HMI_mainOptions, LCD_clearScreen, LCD_displayString,
      LCD_moveCursor, emit] at hk
    cases hkeys : s.keys with
    | nil => simp [hkeys] at hk
    | cons x xs =>
      simp only [hkeys, Option.some.injEq, Prod.mk.injEq] at hk
      obtain ⟨-, rfl⟩ := hk
      exact hs
  by_cases ho : k = cfg.OPEN_DOOR
  · simp only [ho, if_true, Option.bind_eq_some] at h
    obtain ⟨s1, hv, hd⟩ := h
    have hs1 := hs0.of_frame (frame_verification cfg _ _ _ hv)
    unfold dispatchOpen at hd
    split_ifs at hd with c1 c2
    · exact hs1.of_frame (frame_openingDoor cfg _ _ hd)
    · exact wrongPassword_inv cfg _ _ hd hs1
    · simp only [Option.some.injEq] at hd
      subst hd
      exact hs1
  · by_cases hc : k = cfg.CHANGE_PASSWORD
    · subst hc
      rw [if_neg ho, if_pos rfl, Option.bind_eq_some] at h
      obtain ⟨s1, hv, hd⟩ := h
      have hs1 := hs0.of_frame (frame_verification cfg _ _ _ hv)
      unfold dispatchChange at hd
      split_ifs at hd with c1 c2
      · exact hs1.of_frame (frame_newPassword cfg _ _ hd)
      · exact wrongPassword_inv cfg _ _ hd hs1
      · simp only [Option.some.injEq] at hd
        subst hd
        exact hs1
    · rw [if_neg ho, if_neg hc] at h
      simp only [Option.some.injEq] at h
      subst h
      exact hs0

theorem superLoop_inv (cfg : Config) :
    ∀ (n : Nat) (s s' : St), superLoop cfg n s = some s' → MistakesOk cfg s →
      MistakesOk cfg s' := by
  intro n
  induction n with
  | zero =>
    intro s s' h hs
    simp only [superLoop, Option.some.injEq] at h
    subst h
    exact hs
  | succ n ih =>
    intro s s' h hs
    rw [superLoop, Option.bind_eq_some] at h
    obtain ⟨s1, h1, h2⟩ := h
    exact ih _ _ h2 (superLoop_body_inv cfg _ _ h1 hs)

theorem main_init_frame (cfg : Config) (s s' : St) (h : main_init cfg s = some s') :
    Frame s s' := by
  have := frame_newPassword cfg _ _ h
  simp only [Frame, UART_init, LCD_init, LCD_clearScreen, LCD_displayString, LCD_moveCursor,
    delay_ms, emit] at this ⊢
  exact this

/-! ## Two nodes on one link -/

theorem linkStep_chain (cfg : Config) (c g : Nat) (hc : c < 256)
    (hRTS : cfg.READY_TO_SEND < 256) (hRTR : cfg.READY_TO_RECEIVE < 256)
    (hRD : cfg.RECEIVE_DONE < 256) (i : Nat) (hi : i ≤ 8) (w : Bool) (l : Link)
    (h : linkStep cfg c w (linkChain cfg c g i) = some l) :
    i < 8 ∧ l = linkChain cfg c g (i + 1) ∧ w = linkSchedule.getD i true := by
  have m1 := Nat.mod_eq_of_lt hc
  have m2 := Nat.mod_eq_of_lt hRTS
  have m3 := Nat.mod_eq_of_lt hRTR
  have m4 := Nat.mod_eq_of_lt hRD
  interval_cases i <;> cases w <;>
    simp [linkStep, senderStep, receiverStep, linkChain, linkStart, linkDone, m1, m2, m3, m4,
      linkSchedule] at h ⊢ <;> exact h.symm

theorem linkStep_next (cfg : Config) (c g : Nat) (hc : c < 256)
    (hRTS : cfg.READY_TO_SEND < 256) (hRTR : cfg.READY_TO_RECEIVE < 256)
    (hRD : cfg.RECEIVE_DONE < 256) (i : Nat) (hi : i < 8) :
    linkStep cfg c (linkSchedule.getD i true) (linkChain cfg c g i) =
      some (linkChain cfg c g (i + 1)) := by
  have m1 := Nat.mod_eq_of_lt hc
  have m2 := Nat.mod_eq_of_lt hRTS
  have m3 := Nat.mod_eq_of_lt hRTR
  have m4 := Nat.mod_eq_of_lt hRD
  interval_cases i <;>
    simp [linkStep, senderStep, receiverStep, linkChain, linkStart, linkDone, m1, m2, m3, m4,
      linkSchedule]

theorem linkRun_chain (cfg : Config) (c g : Nat) (hc : c < 256)
    (hRTS : cfg.READY_TO_SEND < 256) (hRTR : cfg.READY_TO_RECEIVE < 256)
    (hRD : cfg.RECEIVE_DONE < 256) :
    ∀ (sched : List Bool) (i : Nat) (l : Link), i ≤ 8 →
      linkRun cfg c sched (linkChain cfg c g i) = some l →
      i + sched.length ≤ 8 ∧ l = linkChain cfg c g (i + sched.length) := by
  intro sched
  induction sched with
  | nil =>
    intro i l hi h
    simp only [linkRun, Option.some.injEq] at h
    exact ⟨by simpa using hi, by simpa using h.symm⟩
  | cons w ws ih =>
    intro i l hi h
    rw [linkRun, Option.bind_eq_some] at h
    obtain ⟨l1, h1, h2⟩ := h
    obtain ⟨hlt, rfl, -⟩ := linkStep_chain cfg c g hc hRTS hRTR hRD i hi w l1 h1
    obtain ⟨hb, hl⟩ := ih (i + 1) l (by omega) h2
    simp only [List.length_cons]
    exact ⟨by omega, by rw [hl]; congr 1; omega⟩

/-! ## The input loops in the shape of the source -/

/-- The loop `while(UART_recieveByte() != m);` in the shape of the source: receive a
byte; if it is not `m`, loop. -/
theorem UART_await_unfold (m : Nat) (s : St) :
    UART_await m s =
      (UART_recieveByte s).bind fun r =>
        if r.1 ≠ m then UART_await m r.2 else some r.2 := by
  obtain ⟨pw, ms, tk, pm, cmd, keys, rx, ton, tr, pk⟩ := s
  cases rx with
  | nil => simp [UART_await, UART_recieveByte, awaitByte]
  | cons b bs =>
    by_cases hb : b = m
    · simp [UART_await, UART_recieveByte, awaitByte, hb, emit]
    · simp only [UART_await, UART_recieveByte, awaitByte, ne_eq, hb, not_false_eq_true, if_true,
        emit, Option.some_bind, Option.map_map]
      cases awaitByte m bs <;> simp

/-- The loop `while(KEYPAD_getPressedKey() != m);` in the shape of the source. -/
theorem KEYPAD_await_unfold (m : Nat) (s : St) :
    KEYPAD_await m s =
      (KEYPAD_getPressedKey s).bind fun r =>
        if r.1 ≠ m then KEYPAD_await m r.2 else some r.2 := by
  obtain ⟨pw, ms, tk, pm, cmd, keys, rx, ton, tr, pk⟩ := s
  cases keys with
  | nil => simp [KEYPAD_await, KEYPAD_getPressedKey, awaitByte]
  | cons b bs =>
    by_cases hb : b = m
    · simp [KEYPAD_await, KEYPAD_getPressedKey, awaitByte, hb, emit]
    · simp only [KEYPAD_await, KEYPAD_getPressedKey, awaitByte, ne_eq, hb, not_false_eq_true,
        if_true, emit, Option.some_bind, Option.map_map]
      cases awaitByte m bs <;> simp

/-- The first loop of `HMI_getPassword` in the shape of the source: while
`counter != PASSWORD_LENGTH`, read a key; a digit is shown as `*`, stored at
`counter` and counted; then wait for the key click. -/
theorem getPassword_fill_unfold (cfg : Config) (counter : Nat) (s : St) :
    getPassword_fill cfg s.keys counter s =
      if counter ≠ cfg.PASSWORD_LENGTH then
        (KEYPAD_getPressedKey s).bind fun r =>
          if r.1 ≤ 9 then
            getPassword_fill cfg r.2.keys ((counter + 1) % 256)
              (delay_ms cfg.KEYPAD_CLICK_TIME
                { LCD_displayCharacter '*' r.2 with
                  g_inputPassword := r.2.g_inputPassword.set counter r.1 })
          else getPassword_fill cfg r.2.keys counter (delay_ms cfg.KEYPAD_CLICK_TIME r.2)
      else some s := by
  obtain ⟨pw, ms, tk, pm, cmd, keys, rx, ton, tr, pk⟩ := s
  cases keys with
  | nil => by_cases hc : counter = cfg.PASSWORD_LENGTH <;>
      simp [getPassword_fill, KEYPAD_getPressedKey, hc]
  | cons k ks =>
    by_cases hc : counter = cfg.PASSWORD_LENGTH
    · simp [getPassword_fill, hc]
    · by_cases hk : k ≤ 9 <;>
        simp [getPassword_fill, KEYPAD_getPressedKey, hc, hk, emit, LCD_displayCharacter,
          delay_ms]

/-! ## The fuel of the counting loops -/

theorem spin_mono (cond : Nat → Bool) :
    ∀ (n : Nat) (s r : St), spin cond n s = some r → ∀ m, n ≤ m → spin cond m s = some r := by
  intro n
  induction n with
  | zero => intro s r h; simp [spin] at h
  | succ n ih =>
    intro s r h m hm
    obtain ⟨m, rfl⟩ : ∃ k, m = k + 1 := ⟨m - 1, by omega⟩
    by_cases hc : cond s.g_tick = true
    · by_cases ht : s.timerOn = true
      · simp only [spin, hc, ht, if_true] at h ⊢
        exact ih _ _ h m (by omega)
      · simp [spin, hc, ht] at h
    · simp only [spin, hc, Bool.false_eq_true, if_false] at h ⊢
      exact h

theorem spin_none_of_all (cond : Nat → Bool) :
    ∀ (n : Nat) (s : St), s.g_tick < 256 →
      (∀ j, j < n → cond ((s.g_tick + j) % 256) = true) → spin cond n s = none := by
  intro n
  induction n with
  | zero => intro s _ _; rfl
  | succ n ih =>
    intro s hs hall
    have h0 : cond s.g_tick = true := by
      have := hall 0 (by omega)
      rwa [Nat.add_zero, Nat.mod_eq_of_lt hs] at this
    simp only [spin, h0, if_true]
    by_cases ht : s.timerOn = true
    · simp only [ht, if_true]
      apply ih
      · exact Nat.mod_lt _ (by omega)
      · intro j hj
        have := hall (j + 1) (by omega)
        simp only [interrupt, HMI_TimerCallBackProcessing, emit]
        rw [Nat.mod_add_mod]
        rwa [show s.g_tick + 1 + j = s.g_tick + (j + 1) by omega]
    · simp [ht]

theorem spin_all_of_none (cond : Nat → Bool) :
    ∀ (n : Nat) (s : St), s.g_tick < 256 → s.timerOn = true → spin cond n s = none →
      ∀ j, j < n → cond ((s.g_tick + j) % 256) = true := by
  intro n
  induction n with
  | zero => intro s _ _ _ j hj; omega
  | succ n ih =>
    intro s hs ht h j hj
    by_cases hc : cond s.g_tick = true
    · simp only [spin, hc, ht, if_true] at h
      cases j with
      | zero => rwa [Nat.add_zero, Nat.mod_eq_of_lt hs]
      | succ j =>
        have := ih (interrupt s) (Nat.mod_lt _ (by omega)) ht h j (by omega)
        simp only [interrupt, HMI_TimerCallBackProcessing, emit] at this
        rw [Nat.mod_add_mod] at this
        rwa [show s.g_tick + 1 + j = s.g_tick + (j + 1) by omega] at this
    · simp [spin, hc] at h

/-- The fuel of `busyWait` is never what stops it: on a `uint8` counter no larger
amount gives another run. -/
theorem busyWait_fuel (cond : Nat → Bool) (s : St) (hs : s.g_tick < 256) (n : Nat)
    (hn : 256 ≤ n) : spin cond n s = busyWait cond s := by
  unfold busyWait
  cases h : spin cond 256 s with
  | some r => exact spin_mono cond 256 s r h n hn
  | none =>
    by_cases ht : s.timerOn = true
    · apply spin_none_of_all cond n s hs
      intro j _
      have := spin_all_of_none cond 256 s hs ht h (j % 256) (Nat.mod_lt _ (by omega))
      rwa [Nat.add_mod_mod] at this
    · obtain ⟨m, rfl⟩ : ∃ k, n = k + 1 := ⟨n - 1, by omega⟩
      by_cases hc : cond s.g_tick = true
      · simp [spin, hc, ht]
      · simp [spin, hc] at h

theorem sendPassword_loop_mono (cfg : Config) :
    ∀ (n counter : Nat) (s r : St), sendPassword_loop cfg n counter s = some r →
      ∀ m, n ≤ m → sendPassword_loop cfg m counter s = some r := by
  intro n
  induction n with
  | zero => intro counter s r h; simp [sendPassword_loop] at h
  | succ n ih =>
    intro counter s r h m hm
    obtain ⟨m, rfl⟩ : ∃ k, m = k + 1 := ⟨m - 1, by omega⟩
    by_cases hc : counter < cfg.PASSWORD_LENGTH
    · rw [sendPassword_loop, if_pos hc] at h ⊢
      exact ih _ _ _ h m (by omega)
    · rw [sendPassword_loop, if_neg hc] at h ⊢
      exact h

theorem sendPassword_loop_none (cfg : Config) (hN : 256 ≤ cfg.PASSWORD_LENGTH) :
    ∀ (n counter : Nat) (s : St), counter < 256 → sendPassword_loop cfg n counter s = none := by
  intro n
  induction n with
  | zero => intro counter s _; rfl
  | succ n ih =>
    intro counter s hc
    rw [sendPassword_loop, if_pos (by omega)]
    exact ih _ _ (Nat.mod_lt _ (by omega))

theorem sendPassword_loop_some (cfg : Config) (hN : cfg.PASSWORD_LENGTH < 256) :
    ∀ (k n counter : Nat) (s : St), counter + k = cfg.PASSWORD_LENGTH → k < n →
      ∃ r, sendPassword_loop cfg n counter s = some r := by
  intro k
  induction k with
  | zero =>
    intro n counter s hk hn
    obtain ⟨m, rfl⟩ : ∃ j, n = j + 1 := ⟨n - 1, by omega⟩
    exact ⟨s, by rw [sendPassword_loop, if_neg (by omega)]⟩
  | succ k ih =>
    intro n counter s hk hn
    obtain ⟨m, rfl⟩ : ∃ j, n = j + 1 := ⟨n - 1, by omega⟩
    rw [sendPassword_loop, if_pos (by omega), Nat.mod_eq_of_lt (by omega)]
    exact ih m (counter + 1) _ (by omega) (by omega)

/-- The fuel of `HMI_sendPassword` is never what stops it. -/
theorem sendPassword_fuel (cfg : Config) (s : St) (n : Nat) (hn : 257 ≤ n) :
    sendPassword_loop cfg n 0 s = HMI_sendPassword cfg s := by
  unfold HMI_sendPassword
  by_cases hN : cfg.PASSWORD_LENGTH < 256
  · obtain ⟨r, hr⟩ := sendPassword_loop_some cfg hN cfg.PASSWORD_LENGTH 257 0 s (by omega)
      (by omega)
    rw [hr]
    exact sendPassword_loop_mono cfg 257 0 s r hr n hn
  · rw [sendPassword_loop_none cfg (by omega) n 0 s (by omega),
      sendPassword_loop_none cfg (by omega) 257 0 s (by omega)]

/-! ## The nodes of the link model are the two handshake functions -/

theorem senderAlone_awaitReceiver (cfg : Config) (c : Nat) (R : RecvPc) (toR : List Nat)
    (g : Nat) (res : Option Nat) :
    ∀ (rx : List Nat) (n : Nat),
      senderAlone cfg c (rx.length + n)
          { sender := SendPc.awaitReceiver, receiver := R, toReceiver := toR, toSender := rx,
            g_command := g, result := res } =
        (awaitByte cfg.READY_TO_RECEIVE rx).bind fun r =>
          senderAlone cfg c (r.2.length + n)
            { sender := SendPc.sendCommand, receiver := R, toReceiver := toR, toSender := r.2,
              g_command := g, result := res } := by
  intro rx
  induction rx with
  | nil =>
    intro n
    cases n <;> simp [senderAlone, senderStep, awaitByte]
  | cons b bs ih =>
    intro n
    rw [show (b :: bs).length + n = (bs.length + n) + 1 by simp only [List.length_cons]; omega]
    by_cases hb : b = cfg.READY_TO_RECEIVE
    · simp [senderAlone, senderStep, awaitByte, hb]
    · simp only [senderAlone, senderStep, awaitByte, ne_eq, hb, not_false_eq_true, if_true,
        Option.some_bind, reduceCtorEq, if_false]
      rw [ih n]
      cases awaitByte cfg.READY_TO_RECEIVE bs <;> simp

theorem senderAlone_awaitDone (cfg : Config) (c : Nat) (R : RecvPc) (toR : List Nat)
    (g : Nat) (res : Option Nat) :
    ∀ (rx : List Nat) (n : Nat),
      senderAlone cfg c (rx.length + n)
          { sender := SendPc.awaitDone, receiver := R, toReceiver := toR, toSender := rx,
            g_command := g, result := res } =
        (awaitByte cfg.RECEIVE_DONE rx).bind fun r =>
          senderAlone cfg c (r.2.length + n)
            { sender := SendPc.returned, receiver := R, toReceiver := toR, toSender := r.2,
              g_command := g, result := res } := by
  intro rx
  induction rx with
  | nil =>
    intro n
    cases n <;> simp [senderAlone, senderStep, awaitByte]
  | cons b bs ih =>
    intro n
    rw [show (b :: bs).length + n = (bs.length + n) + 1 by simp only [List.length_cons]; omega]
    by_cases hb : b = cfg.RECEIVE_DONE
    · simp [senderAlone, senderStep, awaitByte, hb]
    · simp only [senderAlone, senderStep, awaitByte, ne_eq, hb, not_false_eq_true, if_true,
        Option.some_bind, reduceCtorEq, if_false]
      rw [ih n]
      cases awaitByte cfg.RECEIVE_DONE bs <;> simp

/-- The sending node of the two-node model is `HMI_sendCommand`: stepped on its
own against the bytes `s.rx` it returns exactly when `HMI_sendCommand` does on
`s`, having sent `READY_TO_SEND` and the command and left the same bytes
unread. -/
theorem senderAlone_refines (cfg : Config) (c : Nat) (s : St) (R : RecvPc) (g : Nat)
    (res : Option Nat) :
    senderAlone cfg c (s.rx.length + 3)
        { sender := SendPc.sendReady, receiver := R, toReceiver := [], toSender := s.rx,
          g_command := g, result := res } =
      (HMI_sendCommand cfg c s).map fun s' =>
        { sender := SendPc.returned, receiver := R,
          toReceiver := [cfg.READY_TO_SEND % 256, c % 256], toSender := s'.rx,
          g_command := g, result := res } := by
  obtain ⟨pw, ms, tk, pm, cmd, keys, rx, ton, tr, pk⟩ := s
  have e3 : rx.length + 3 = (rx.length + 2) + 1 := rfl
  simp only
  rw [e3, senderAlone, if_neg (by simp)]
  simp only [senderStep, Option.some_bind, List.nil_append]
  rw [senderAlone_awaitReceiver cfg c R _ g res rx 2]
  simp only [HMI_sendCommand, UART_sendByte, UART_await, emit, Option.bind_eq_bind]
  cases h1 : awaitByte cfg.READY_TO_RECEIVE rx with
  | none => simp
  | some r1 =>
    have e2 : r1.2.length + 2 = (r1.2.length + 1) + 1 := rfl
    simp only [Option.some_bind, Option.map_some']
    rw [e2, senderAlone, if_neg (by simp)]
    simp only [senderStep, Option.some_bind, List.singleton_append]
    rw [senderAlone_awaitDone cfg c R _ g res r1.2 1]
    cases h2 : awaitByte cfg.RECEIVE_DONE r1.2 with
    | none => simp
    | some r2 => simp [senderAlone]

theorem receiverAlone_awaitSender (cfg : Config) (S : SendPc) (toS : List Nat)
    (g : Nat) (res : Option Nat) :
    ∀ (rx : List Nat) (n : Nat),
      receiverAlone cfg (rx.length + n)
          { sender := S, receiver := RecvPc.awaitSender, toReceiver := rx, toSender := toS,
            g_command := g, result := res } =
        (awaitByte cfg.READY_TO_SEND rx).bind fun r =>
          receiverAlone cfg (r.2.length + n)
            { sender := S, receiver := RecvPc.sendReady, toReceiver := r.2, toSender := toS,
              g_command := g, result := res } := by
  intro rx
  induction rx with
  | nil =>
    intro n
    cases n <;> simp [receiverAlone, receiverStep, awaitByte]
  | cons b bs ih =>
    intro n
    rw [show (b :: bs).length + n = (bs.length + n) + 1 by simp only [List.length_cons]; omega]
    by_cases hb : b = cfg.READY_TO_SEND
    · simp [receiverAlone, receiverStep, awaitByte, hb]
    · simp only [receiverAlone, receiverStep, awaitByte, ne_eq, hb, not_false_eq_true, if_true,
        Option.some_bind, reduceCtorEq, if_false]
      rw [ih n]
      cases awaitByte cfg.READY_TO_SEND bs <;> simp

/-- The receiving node of the two-node model is `HMI_receiveCommand`: stepped on
its own against the bytes `s.rx` it returns exactly when `HMI_receiveCommand`
does on `s`, with the same value returned and stored in `g_command`, having
sent `READY_TO_RECEIVE` and `RECEIVE_DONE` and left the same bytes unread. -/
theorem receiverAlone_refines (cfg : Config) (s : St) (S : SendPc) (g : Nat) :
    receiverAlone cfg (s.rx.length + 3)
        { sender := S, receiver := RecvPc.awaitSender, toReceiver := s.rx, toSender := [],
          g_command := g, result := none } =
      (HMI_receiveCommand cfg s).map fun r =>
        { sender := S, receiver := RecvPc.returned, toReceiver := r.2.rx,
          toSender := [cfg.READY_TO_RECEIVE % 256, cfg.RECEIVE_DONE % 256],
          g_command := r.2.g_command, result := some r.1 } := by
  obtain ⟨pw, ms, tk, pm, cmd, keys, rx, ton, tr, pk⟩ := s
  simp only
  rw [receiverAlone_awaitSender cfg S _ g none rx 3]
  simp only [HMI_receiveCommand, UART_sendByte, UART_await, UART_recieveByte, emit,
    Option.bind_eq_bind, Option.pure_def]
  cases h1 : awaitByte cfg.READY_TO_SEND rx with
  | none => simp
  | some r1 =>
    obtain ⟨read, rest⟩ := r1
    cases rest with
    | nil => simp [receiverAlone, receiverStep]
    | cons v vs => simp [receiverAlone, receiverStep]

theorem txBytes_round (cfg : Config) (r : Round) :
    txBytes (r.trace cfg) =
      [cfg.READY_TO_SEND % 256, cfg.SEND_FIRST_PASSWORD % 256] ++ r.first.password ++
      [cfg.READY_TO_SEND % 256, cfg.SEND_SECOND_PASSWORD % 256] ++ r.second.password ++
      [cfg.READY_TO_RECEIVE % 256, cfg.RECEIVE_DONE % 256] := by
  have h2 : ∀ c, txBytes (sendCommandTrace cfg c) =
      [cfg.READY_TO_SEND % 256, c % 256] := fun _ => rfl
  have h3 : txBytes (receiveCommandTrace cfg r.verdict) =
      [cfg.READY_TO_RECEIVE % 256, cfg.RECEIVE_DONE % 256] := rfl
  have h4 : txBytes (if r.verdict = cfg.PASS_MIS_MATCHED then
      [Event.lcdClear, Event.lcdString "MISMATCHED Pass",
        Event.delay cfg.STAND_PRESENTATION_TIME] else []) = [] := by
    split_ifs <;> rfl
  rw [Round.trace]
  simp only [txBytes_append, h2, h3, h4, txBytes_getPasswordTrace,
    txBytes_sendPasswordTrace cfg r.first.password (digitsOf_le r.first.pre),
    txBytes_sendPasswordTrace cfg r.second.password (digitsOf_le r.second.pre)]
  simp [txBytes]

/-! ## The shape of a key sequence that enters a password -/

/-- A key sequence with at least `n` digit keys splits after its `n`-th digit
key. -/
theorem split_after_digits :
    ∀ (ks : List Nat) (n : Nat), n ≤ (digitsOf ks).length →
      ∃ pre rest, ks = pre ++ rest ∧ (digitsOf pre).length = n ∧
        ∀ k ∈ pre.getLast?, k ≤ 9 := by
  intro ks
  induction ks with
  | nil =>
    intro n hn
    refine ⟨[], [], rfl, ?_, by simp⟩
    simp only [digitsOf, List.filter_nil, List.length_nil] at hn ⊢
    omega
  | cons k ks ih =>
    intro n hn
    cases n with
    | zero => exact ⟨[], k :: ks, rfl, rfl, by simp⟩
    | succ m =>
      by_cases hk : k ≤ 9
      · have hm : m ≤ (digitsOf ks).length := by
          simp only [digitsOf, List.filter_cons, hk, decide_True, if_true,
            List.length_cons] at hn ⊢
          omega
        obtain ⟨pre, rest, rfl, hlen, hlast⟩ := ih m hm
        refine ⟨k :: pre, rest, rfl, ?_, ?_⟩
        · simp only [digitsOf, List.filter_cons, hk, decide_True, if_true,
            List.length_cons] at hlen ⊢
          omega
        · intro x hx
          cases pre with
          | nil =>
            simp only [List.getLast?_singleton, Option.mem_def, Option.some.injEq] at hx
            omega
          | cons y ys =>
            apply hlast
            simpa [List.getLast?_cons_cons] using hx
      · have hm : m + 1 ≤ (digitsOf ks).length := by
          simp only [digitsOf, List.filter_cons, hk, decide_False, Bool.false_eq_true,
            if_false] at hn ⊢
          exact hn
        obtain ⟨pre, rest, rfl, hlen, hlast⟩ := ih (m + 1) hm
        refine ⟨k :: pre, rest, rfl, ?_, ?_⟩
        · simp only [digitsOf, List.filter_cons, hk, decide_False, Bool.false_eq_true,
            if_false] at hlen ⊢
          exact hlen
        · intro x hx
          cases pre with
          | nil => simp [digitsOf] at hlen
          | cons y ys =>
            apply hlast
            simpa [List.getLast?_cons_cons] using hx

/-- A sequence that holds `m` splits at the first `m`. -/
theorem split_at_first (m : Nat) :
    ∀ (l : List Nat), m ∈ l → ∃ mid rest, l = mid ++ m :: rest ∧ m ∉ mid := by
  intro l
  induction l with
  | nil => intro h; simp at h
  | cons b bs ih =>
    intro h
    by_cases hb : b = m
    · exact ⟨[], bs, by rw [hb]; rfl, by simp⟩
    · have : m ∈ bs := by
        rcases List.mem_cons.mp h with h | h
        · exact absurd h.symm hb
        · exact h
      obtain ⟨mid, rest, rfl, hmid⟩ := ih this
      refine ⟨b :: mid, rest, rfl, ?_⟩
      simp only [List.mem_cons, not_or]
      exact ⟨fun e => hb e.symm, hmid⟩

/-- Every key sequence with at least `n` digit keys and a confirm key somewhere
after the `n`-th of them is of the form `pre ++ mid ++ '=' :: rest` with `pre`
ending at the `n`-th digit key (so that its digits are the first `n` digit
keys) and no confirm key in `mid`. -/
theorem entry_split (n : Nat) (a b : List Nat) (h : n ≤ (digitsOf a).length) :
    ∃ pre mid rest, a ++ KEY_ENTER :: b = pre ++ mid ++ KEY_ENTER :: rest ∧
      (digitsOf pre).length = n ∧ (∀ k ∈ pre.getLast?, k ≤ 9) ∧ KEY_ENTER ∉ mid ∧
      digitsOf pre = (digitsOf a).take n := by
  obtain ⟨pre, a', rfl, hlen, hlast⟩ := split_after_digits a n h
  obtain ⟨mid, rest, hsplit, hmid⟩ := split_at_first KEY_ENTER (a' ++ KEY_ENTER :: b) (by simp)
  refine ⟨pre, mid, rest, by rw [List.append_assoc, hsplit, List.append_assoc], hlen, hlast,
    hmid, ?_⟩
  have : digitsOf (pre ++ a') = digitsOf pre ++ digitsOf a' := by
    simp [digitsOf]
  rw [this, ← hlen, List.take_left']
  rfl

/-! ## Passes of the super loop through a successful verification -/

/-- A pass of the super loop through a successful open-door verification. -/
theorem superLoop_body_open_success (cfg : Config) (hN : cfg.PASSWORD_LENGTH < 256)
    (hO : cfg.OPEN_DOOR_TIME < 256) (hH : cfg.HOLD_DOOR_TIME < 256)
    (hC : cfg.CLOSE_DOOR_TIME < 256)
    (e : Entry) (he : e.ok cfg) (restK restRx : List Nat)
    (s : St) (hlen : s.g_inputPassword.length = cfg.PASSWORD_LENGTH)
    (htick : s.g_tick = 0)
    (hkeys : s.keys = cfg.OPEN_DOOR :: e.keys ++ restK)
    (hrx : s.rx = verificationRx cfg cfg.OPENING_DOOR ++ restRx) :
    superLoop_body cfg s =
      some { afterVerification cfg cfg.OPEN_DOOR e cfg.OPENING_DOOR restK restRx s with
        g_tick := 0
        timerOn := false
        trace := (afterVerification cfg cfg.OPEN_DOOR e cfg.OPENING_DOOR restK restRx s).trace ++
          doorTrace cfg } := by
  have hv : (afterVerification cfg cfg.OPEN_DOOR e cfg.OPENING_DOOR restK restRx
      s).g_matchStatus = cfg.OPENING_DOOR := rfl
  rw [superLoop_body_open cfg hN e he cfg.OPENING_DOOR restK restRx s hlen hkeys hrx,
    dispatchOpen, if_pos hv]
  obtain ⟨pw, ms, tk, pm, cmd, keys, rx, ton, tr, pk⟩ := s
  simp only at htick
  subst htick
  exact openingDoor_spec cfg hO hH hC _ _ _ _ _ _ _ _ _

/-- A pass of the super loop through a successful change-password verification
and the enrollment rounds that follow it. -/
theorem superLoop_body_change_success (cfg : Config) (hN : cfg.PASSWORD_LENGTH < 256)
    (hM : cfg.PASS_MIS_MATCHED < 256) (hne : cfg.CHANGE_PASSWORD ≠ cfg.OPEN_DOOR)
    (e : Entry) (he : e.ok cfg) (init : List Round) (last : Round)
    (hinit : ∀ r ∈ init,
      r.first.ok cfg ∧ r.second.ok cfg ∧ r.verdict = cfg.PASS_MIS_MATCHED)
    (hl1 : last.first.ok cfg) (hl2 : last.second.ok cfg)
    (hlv : last.verdict ≠ cfg.PASS_MIS_MATCHED) (restK restRx : List Nat)
    (s : St) (hlen : s.g_inputPassword.length = cfg.PASSWORD_LENGTH)
    (hkeys : s.keys =
      cfg.CHANGE_PASSWORD :: e.keys ++ (roundsKeys (init ++ [last]) ++ restK))
    (hrx : s.rx =
      verificationRx cfg cfg.CHANGING_PASSWORD ++ (roundsRx cfg (init ++ [last]) ++ restRx)) :
    superLoop_body cfg s =
      some { s with
        g_inputPassword := last.second.password
        g_matchStatus := last.verdict
        g_command := last.verdict
        keys := restK
        rx := restRx
        trace := s.trace ++ menuTrace ++
          Event.key cfg.CHANGE_PASSWORD ::
            verificationTrace cfg cfg.CHANGE_PASSWORD e cfg.CHANGING_PASSWORD ++
          roundsTrace cfg (init ++ [last]) } := by
  have hv : (afterVerification cfg cfg.CHANGE_PASSWORD e cfg.CHANGING_PASSWORD
      (roundsKeys (init ++ [last]) ++ restK) (roundsRx cfg (init ++ [last]) ++ restRx)
      s).g_matchStatus = cfg.CHANGING_PASSWORD := rfl
  rw [superLoop_body_change cfg hN hne e he cfg.CHANGING_PASSWORD _ _ s hlen hkeys hrx,
    dispatchChange, if_pos hv]
  obtain ⟨pw, ms, tk, pm, cmd, keys, rx, ton, tr, pk⟩ := s
  simp only [afterVerification]
  exact newPassword_spec cfg hN hM init last hinit hl1 hl2 hlv restK restRx e.password he.1
    _ _ _ _ _ _ _

/-! # The claims -/

/-- C1: `HMI_sendCommand(c)` on one node and `HMI_receiveCommand()` on the other,
started on an empty lossless in-order link, for every byte `c` and whatever byte
values the three markers have: the eight steps of the handshake lead to the
state in which both calls have returned, the receiver with the value `c` (also
in its `g_command`); every execution, however the two nodes are scheduled, is
an initial part of this one, so it has at most eight steps; and in every
reachable state but the final one a node can move.  So both calls return and
the value received is exactly `c`. -/
theorem command_round_trip (cfg : Config) (c g : Nat) (hc : c < 256)
    (hRTS : cfg.READY_TO_SEND < 256) (hRTR : cfg.READY_TO_RECEIVE < 256)
    (hRD : cfg.RECEIVE_DONE < 256) :
    linkRun cfg c linkSchedule (linkStart g) = some (linkDone c) ∧
    (linkDone c).sender = SendPc.returned ∧ (linkDone c).receiver = RecvPc.returned ∧
    (linkDone c).result = some c ∧ (linkDone c).g_command = c ∧
    (∀ (sched : List Bool) (l : Link), linkRun cfg c sched (linkStart g) = some l →
      sched.length ≤ 8 ∧ l = linkChain cfg c g sched.length ∧
      (l = linkDone c ∨ ∃ w l', linkStep cfg c w l = some l') ∧
      (l.receiver = RecvPc.returned → l.result = some c ∧ l.g_command = c) ∧
      (l.sender = SendPc.returned → l = linkDone c)) := by
  have hstep := linkStep_next cfg c g hc hRTS hRTR hRD
  refine ⟨?_, rfl, rfl, rfl, rfl, ?_⟩
  · have h0 := hstep 0 (by omega)
    have h1 := hstep 1 (by omega)
    have h2 := hstep 2 (by omega)
    have h3 := hstep 3 (by omega)
    have h4 := hstep 4 (by omega)
    have h5 := hstep 5 (by omega)
    have h6 := hstep 6 (by omega)
    have h7 := hstep 7 (by omega)
    simp only [linkSchedule, List.getD_cons_zero, List.getD_cons_succ] at h0 h1 h2 h3 h4 h5 h6 h7
    have e0 : linkStart g = linkChain cfg c g 0 := rfl
    have e8 : linkDone c = linkChain cfg c g 8 := rfl
    rw [e0, e8]
    simp only [linkSchedule, linkRun, h0, h1, h2, h3, h4, h5, h6, h7, Option.some_bind]
  · intro sched l h
    have e0 : linkStart g = linkChain cfg c g 0 := rfl
    rw [e0] at h
    obtain ⟨hlen, hl⟩ := linkRun_chain cfg c g hc hRTS hRTR hRD sched 0 l (by omega) h
    simp only [Nat.zero_add] at hlen hl
    refine ⟨hlen, hl, ?_, ?_, ?_⟩
    · by_cases h8 : sched.length = 8
      · left
        rw [hl, h8]
        rfl
      · right
        exact ⟨_, _, by rw [hl]; exact hstep sched.length (by omega)⟩
    · rw [hl]
      generalize sched.length = n at hlen
      interval_cases n <;> simp [linkChain, linkStart, linkDone]
    · rw [hl]
      generalize sched.length = n at hlen
      interval_cases n <;> simp [linkChain, linkStart, linkDone]

/-- Witness for C1: the round trip of the command `SEND_CHECK_PASSWORD` with the
sample constants. -/
theorem command_round_trip_witness :
    linkRun defaultConfig defaultConfig.SEND_CHECK_PASSWORD linkSchedule (linkStart 0) =
      some (linkDone defaultConfig.SEND_CHECK_PASSWORD) :=
  (command_round_trip defaultConfig defaultConfig.SEND_CHECK_PASSWORD 0 (by decide)
    (by decide) (by decide) (by decide)).1

/-- C2: `HMI_getPassword`, fed a key sequence `pre ++ mid ++ '=' :: rest` in which
`pre` ends with its `PASSWORD_LENGTH`-th digit key and `mid` holds no `=`,
returns having read exactly `pre ++ mid ++ ['=']`, with the digit keys of `pre`
in the password array in the order pressed: the non-digit keys of `pre` (an
`=` among them) are skipped and every key of `mid` is discarded.  Every key
sequence with at least `PASSWORD_LENGTH` digit keys and an `=` after them is of
this form, and the call returns with its first `PASSWORD_LENGTH` digit keys in
the array.  In particular, fed a password `p` of `PASSWORD_LENGTH` digits and
then `=`, it returns with `p` in the array. -/
theorem HMI_getPassword_captures (cfg : Config) (hN : cfg.PASSWORD_LENGTH < 256) :
    (∀ (s : St) (pre mid rest : List Nat),
      s.g_inputPassword.length = cfg.PASSWORD_LENGTH →
      s.keys = pre ++ mid ++ KEY_ENTER :: rest →
      (digitsOf pre).length = cfg.PASSWORD_LENGTH →
      (∀ k ∈ pre.getLast?, k ≤ 9) →
      KEY_ENTER ∉ mid →
      HMI_getPassword cfg s =
        some { s with
          g_inputPassword := digitsOf pre
          keys := rest
          trace := s.trace ++ getPasswordTrace cfg pre mid }) ∧
    (∀ (s : St) (a b : List Nat),
      s.g_inputPassword.length = cfg.PASSWORD_LENGTH →
      s.keys = a ++ KEY_ENTER :: b →
      cfg.PASSWORD_LENGTH ≤ (digitsOf a).length →
      ∃ pre mid rest,
        s.keys = pre ++ mid ++ KEY_ENTER :: rest ∧
        (digitsOf pre).length = cfg.PASSWORD_LENGTH ∧ (∀ k ∈ pre.getLast?, k ≤ 9) ∧
        KEY_ENTER ∉ mid ∧
        HMI_getPassword cfg s =
          some { s with
            g_inputPassword := (digitsOf s.keys).take cfg.PASSWORD_LENGTH
            keys := rest
            trace := s.trace ++ getPasswordTrace cfg pre mid }) ∧
    (∀ (s : St) (p : List Nat),
      s.g_inputPassword.length = cfg.PASSWORD_LENGTH →
      p.length = cfg.PASSWORD_LENGTH →
      (∀ d ∈ p, d ≤ 9) →
      s.keys = p ++ [KEY_ENTER] →
      HMI_getPassword cfg s =
        some { s with
          g_inputPassword := p
          keys := []
          trace := s.trace ++ getPasswordTrace cfg p [] }) := by
  have general : ∀ (s : St) (pre mid rest : List Nat),
      s.g_inputPassword.length = cfg.PASSWORD_LENGTH →
      s.keys = pre ++ mid ++ KEY_ENTER :: rest →
      (digitsOf pre).length = cfg.PASSWORD_LENGTH →
      (∀ k ∈ pre.getLast?, k ≤ 9) →
      KEY_ENTER ∉ mid →
      HMI_getPassword cfg s =
        some { s with
          g_inputPassword := digitsOf pre
          keys := rest
          trace := s.trace ++ getPasswordTrace cfg pre mid } := by
    rintro ⟨pw, ms, tk, pm, cmd, keys, rx, ton, tr, pk⟩ pre mid rest hlen hk hc hl hm
    simp only at hlen hk
    subst hk
    rw [List.append_assoc]
    exact getPassword_spec cfg hN pre mid rest hc hl hm pw hlen ms tk pm cmd rx ton tr pk
  refine ⟨general, ?_, ?_⟩
  · intro s a b hlen hk hdig
    obtain ⟨pre, mid, rest, hsplit, hcount, hlast, hmid, -⟩ :=
      entry_split cfg.PASSWORD_LENGTH a b hdig
    have hk2 : s.keys = pre ++ mid ++ KEY_ENTER :: rest := hk.trans hsplit
    refine ⟨pre, mid, rest, hk2, hcount, hlast, hmid, ?_⟩
    have hfirst : (digitsOf s.keys).take cfg.PASSWORD_LENGTH = digitsOf pre := by
      have : digitsOf s.keys = digitsOf pre ++ digitsOf (mid ++ KEY_ENTER :: rest) := by
        rw [hk2, List.append_assoc]
        simp [digitsOf]
      rw [this, ← hcount, List.take_left']
      rfl
    rw [hfirst]
    exact general s pre mid rest hlen hk2 hcount hlast hmid
  · intro s p hlen hp hd hk
    have hdig : digitsOf p = p := by
      simp only [digitsOf, List.filter_eq_self, decide_eq_true_eq]
      exact hd
    have := general s p [] [] hlen (by simpa using hk) (by rw [hdig, hp])
      (fun k hk => hd k (List.mem_of_mem_getLast? hk)) (by simp)
    rw [hdig] at this
    exact this

/-- Witness for C2: with 5-digit passwords, the keys `1 = 2 * 3 4 5 6 7 = 9` leave
`1 2 3 4 5` in the array and the key `9` unread. -/
theorem HMI_getPassword_captures_witness :
    (HMI_getPassword defaultConfig
        (initialState defaultConfig [1, 61, 2, 42, 3, 4, 5, 6, 7, 61, 9] [])).map
      (fun s => (s.g_inputPassword, s.keys)) = some ([1, 2, 3, 4, 5], [9]) := by
  rw [(HMI_getPassword_captures defaultConfig (by decide)).1
    (initialState defaultConfig [1, 61, 2, 42, 3, 4, 5, 6, 7, 61, 9] [])
    [1, 61, 2, 42, 3, 4, 5] [6, 7] [9] (by decide) (by decide) (by decide) (by decide)
    (by decide)]
  rfl

/-- C3: when the keys typed and the bytes received play `k` enrollment rounds,
the verdict being `PASS_MIS_MATCHED` in all but the last and any other byte
(matched) in the last, `HMI_newPassword` returns after exactly these `k`
rounds: it has consumed the keys and bytes of the `k` rounds and nothing after
them, its driver calls are those of the `k` rounds one after the other (the
first screen of a round is shown `k` times; in each round it transmits
`READY_TO_SEND, SEND_FIRST_PASSWORD`, the first entry, `READY_TO_SEND,
SEND_SECOND_PASSWORD`, the second entry, and the two acknowledgements of the
verdict), `g_matchStatus` is the last verdict and `g_inputPassword` the last
entry. -/
theorem HMI_newPassword_rounds (cfg : Config) (hN : cfg.PASSWORD_LENGTH < 256)
    (hM : cfg.PASS_MIS_MATCHED < 256)
    (init : List Round) (last : Round)
    (hinit : ∀ r ∈ init,
      r.first.ok cfg ∧ r.second.ok cfg ∧ r.verdict = cfg.PASS_MIS_MATCHED)
    (hl1 : last.first.ok cfg) (hl2 : last.second.ok cfg)
    (hlv : last.verdict ≠ cfg.PASS_MIS_MATCHED) (restK restRx : List Nat)
    (s : St) (hlen : s.g_inputPassword.length = cfg.PASSWORD_LENGTH)
    (hkeys : s.keys = roundsKeys (init ++ [last]) ++ restK)
    (hrx : s.rx = roundsRx cfg (init ++ [last]) ++ restRx) :
    HMI_newPassword cfg s =
        some { s with
          g_inputPassword := last.second.password
          g_matchStatus := last.verdict
          g_command := last.verdict
          keys := restK
          rx := restRx
          trace := s.trace ++ roundsTrace cfg (init ++ [last]) } ∧
      roundsStarted (roundsTrace cfg (init ++ [last])) = init.length + 1 ∧
      ∀ r ∈ init ++ [last],
        txBytes (r.trace cfg) =
          [cfg.READY_TO_SEND % 256, cfg.SEND_FIRST_PASSWORD % 256] ++ r.first.password ++
          [cfg.READY_TO_SEND % 256, cfg.SEND_SECOND_PASSWORD % 256] ++ r.second.password ++
          [cfg.READY_TO_RECEIVE % 256, cfg.RECEIVE_DONE % 256] := by
  obtain ⟨pw, ms, tk, pm, cmd, keys, rx, ton, tr, pk⟩ := s
  simp only at hlen hkeys hrx
  subst hkeys hrx
  refine ⟨newPassword_spec cfg hN hM init last hinit hl1 hl2 hlv restK restRx pw hlen
    ms tk pm cmd ton tr pk, ?_, fun r _ => txBytes_round cfg r⟩
  rw [roundsStarted_roundsTrace, List.length_append, List.length_singleton]

/-- Witness for C3: the entries 12345/54321 answered `PASS_MIS_MATCHED`, then
12345/12345 answered matched, make exactly two rounds. -/
theorem HMI_newPassword_rounds_witness :
    (HMI_newPassword defaultConfig
        (initialState defaultConfig
          [1, 2, 3, 4, 5, 61, 5, 4, 3, 2, 1, 61, 1, 2, 3, 4, 5, 61, 1, 2, 3, 4, 5, 61]
          [22, 23, 22, 23, 21, 0, 22, 23, 22, 23, 21, 1])).map
      (fun s => (s.g_matchStatus, s.g_inputPassword, s.keys, s.rx, roundsStarted s.trace)) =
      some (1, [1, 2, 3, 4, 5], [], [], 2) := by
  rw [(HMI_newPassword_rounds defaultConfig (by decide) (by decide)
    [⟨⟨[1, 2, 3, 4, 5], []⟩, ⟨[5, 4, 3, 2, 1], []⟩, defaultConfig.PASS_MIS_MATCHED⟩]
    ⟨⟨[1, 2, 3, 4, 5], []⟩, ⟨[1, 2, 3, 4, 5], []⟩, samplePassMatched⟩
    (by
      intro r hr
      simp only [List.mem_singleton] at hr
      subst hr
      exact ⟨⟨by decide, by decide, by decide⟩, ⟨by decide, by decide, by decide⟩, rfl⟩)
    ⟨by decide, by decide, by decide⟩ ⟨by decide, by decide, by decide⟩ (by decide) [] []
    (initialState defaultConfig
      [1, 2, 3, 4, 5, 61, 5, 4, 3, 2, 1, 61, 1, 2, 3, 4, 5, 61, 1, 2, 3, 4, 5, 61]
      [22, 23, 22, 23, 21, 0, 22, 23, 22, 23, 21, 1])
    (by decide) (by decide) (by decide)).1]
  rfl

/-- C4: with `MAX_NUM_OF_MISTAKES = 3`, a call of `HMI_wrongPassword` that finds
the counter at 0 or at 1 only shows the notice and raises the counter to 1,
resp. 2, without starting the timer; a call that finds it at 2 (and `g_tick` at
0) enters the warning phase, waits `WARNING_TIME` ticks and returns with
`g_passwordMistakes = 0`, `g_tick = 0` and the timer stopped; so three calls in
a row from counter 0 lock out exactly in the third. -/
theorem HMI_wrongPassword_third (cfg : Config) (hMax : cfg.MAX_NUM_OF_MISTAKES = 3)
    (hW : cfg.WARNING_TIME < 256) :
    (∀ s : St, s.g_passwordMistakes = 0 →
      HMI_wrongPassword cfg s =
        some { s with
          g_passwordMistakes := 1
          trace := s.trace ++ wrongTrace cfg
          peakMistakes := max s.peakMistakes 1 }) ∧
    (∀ s : St, s.g_passwordMistakes = 1 →
      HMI_wrongPassword cfg s =
        some { s with
          g_passwordMistakes := 2
          trace := s.trace ++ wrongTrace cfg
          peakMistakes := max s.peakMistakes 2 }) ∧
    (∀ s : St, s.g_passwordMistakes = 2 → s.g_tick = 0 →
      HMI_wrongPassword cfg s =
        some { s with
          g_passwordMistakes := 0
          g_tick := 0
          timerOn := false
          trace := s.trace ++ lockoutTrace cfg
          peakMistakes := max s.peakMistakes 3 }) ∧
    (∀ s : St, s.g_passwordMistakes = 0 → s.g_tick = 0 →
      ((HMI_wrongPassword cfg s).bind (HMI_wrongPassword cfg)).bind (HMI_wrongPassword cfg) =
        some { s with
          g_passwordMistakes := 0
          g_tick := 0
          timerOn := false
          trace := s.trace ++ wrongTrace cfg ++ wrongTrace cfg ++ lockoutTrace cfg
          peakMistakes := max s.peakMistakes 3 }) ∧
    Event.timerStart ∉ wrongTrace cfg ∧ Event.tick ∉ wrongTrace cfg ∧
    ticksIn (lockoutTrace cfg) = cfg.WARNING_TIME := by
  refine ⟨?_, ?_, ?_, ?_, ?_, ?_, ?_⟩
  · rintro ⟨pw, ms, tk, pm, cmd, keys, rx, ton, tr, pk⟩ h
    simp only at h
    subst h
    rw [wrongPassword_below cfg _ _ _ _ _ _ _ _ _ _ (by rw [hMax]; decide)]
  · rintro ⟨pw, ms, tk, pm, cmd, keys, rx, ton, tr, pk⟩ h
    simp only at h
    subst h
    rw [wrongPassword_below cfg _ _ _ _ _ _ _ _ _ _ (by rw [hMax]; decide)]
  · rintro ⟨pw, ms, tk, pm, cmd, keys, rx, ton, tr, pk⟩ h h0
    simp only at h h0
    subst h h0
    rw [wrongPassword_lockout cfg hW _ _ _ _ _ _ _ _ _ (by rw [hMax]), hMax]
  · rintro ⟨pw, ms, tk, pm, cmd, keys, rx, ton, tr, pk⟩ h h0
    simp only at h h0
    subst h h0
    rw [wrongPassword_below cfg _ _ _ _ _ _ _ _ _ _ (by rw [hMax]; decide), Option.some_bind,
      wrongPassword_below cfg _ _ _ _ _ _ _ _ _ _ (by rw [hMax]; decide), Option.some_bind,
      wrongPassword_lockout cfg hW _ _ _ _ _ _ _ _ _ (by rw [hMax]), hMax]
    simp [max_assoc]
  · simp [wrongTrace]
  · simp [wrongTrace]
  · simp [ticksIn, lockoutTrace, List.count_replicate, List.count_cons]

/-- Witness for C4: three wrong-password calls in a row from the initial state. -/
theorem HMI_wrongPassword_third_witness :
    (((HMI_wrongPassword defaultConfig (initialState defaultConfig [] [])).bind
        (HMI_wrongPassword defaultConfig)).bind (HMI_wrongPassword defaultConfig)).map
      (fun s => (s.g_passwordMistakes, s.g_tick, s.timerOn, ticksIn s.trace)) =
      some (0, 0, false, 60) := by
  rw [(HMI_wrongPassword_third defaultConfig rfl (by decide)).2.2.2.1
    (initialState defaultConfig [] []) rfl rfl]
  rfl

/-- Counterexample to C5 as stated: after enrollment, one open-door attempt
answered `WRONG_PASSWORD` and one answered `OPENING_DOOR`, the super loop is
back at the menu with `g_passwordMistakes = 1`, not 0. -/
theorem mistakes_not_reset_on_success :
    (main defaultConfig 2
        (initialState defaultConfig
          [1, 2, 3, 4, 5, 61, 1, 2, 3, 4, 5, 61, 43, 1, 2, 3, 4, 5, 61, 43, 1, 2, 3, 4, 5, 61]
          [22, 23, 22, 23, 21, 1, 22, 23, 22, 23, 21, 48, 22, 23, 22, 23, 21, 34])).map
      (fun s => (s.g_matchStatus, s.g_passwordMistakes, s.keys, s.rx)) =
      some (defaultConfig.OPENING_DOOR, 1, [], []) := by
  decide

/-- C5 (as amended): a verification answered with the success value of its
action (`OPENING_DOOR` for open-door, `CHANGING_PASSWORD` for change-password)
leaves `g_passwordMistakes` as it was before the verification when the pass is
over: the counter is not reset on success.  So it is for every state and
input from which the pass returns, and the pass does return, with the counter
unchanged, when the keys and bytes play an open-door verification answered
`OPENING_DOOR`, or a change-password verification answered
`CHANGING_PASSWORD` and the enrollment rounds after it. -/
theorem mistakes_kept_on_success (cfg : Config) (hN : cfg.PASSWORD_LENGTH < 256)
    (hM : cfg.PASS_MIS_MATCHED < 256) (hne : cfg.CHANGE_PASSWORD ≠ cfg.OPEN_DOOR)
    (hO : cfg.OPEN_DOOR_TIME < 256) (hH : cfg.HOLD_DOOR_TIME < 256)
    (hC : cfg.CLOSE_DOOR_TIME < 256) :
    (∀ s s1 s' : St, verification cfg cfg.OPEN_DOOR s = some s1 →
      s1.g_matchStatus = cfg.OPENING_DOOR → dispatchOpen cfg s1 = some s' →
      s'.g_passwordMistakes = s.g_passwordMistakes) ∧
    (∀ s s1 s' : St, verification cfg cfg.CHANGE_PASSWORD s = some s1 →
      s1.g_matchStatus = cfg.CHANGING_PASSWORD → dispatchChange cfg s1 = some s' →
      s'.g_passwordMistakes = s.g_passwordMistakes) ∧
    (∀ (e : Entry) (restK restRx : List Nat) (s : St), e.ok cfg →
      s.g_inputPassword.length = cfg.PASSWORD_LENGTH → s.g_tick = 0 →
      s.keys = cfg.OPEN_DOOR :: e.keys ++ restK →
      s.rx = verificationRx cfg cfg.OPENING_DOOR ++ restRx →
      ∃ s', superLoop_body cfg s = some s' ∧
        s'.g_passwordMistakes = s.g_passwordMistakes) ∧
    (∀ (e : Entry) (init : List Round) (last : Round) (restK restRx : List Nat) (s : St),
      e.ok cfg →
      (∀ r ∈ init, r.first.ok cfg ∧ r.second.ok cfg ∧ r.verdict = cfg.PASS_MIS_MATCHED) →
      last.first.ok cfg → last.second.ok cfg → last.verdict ≠ cfg.PASS_MIS_MATCHED →
      s.g_inputPassword.length = cfg.PASSWORD_LENGTH →
      s.keys = cfg.CHANGE_PASSWORD :: e.keys ++ (roundsKeys (init ++ [last]) ++ restK) →
      s.rx = verificationRx cfg cfg.CHANGING_PASSWORD ++
        (roundsRx cfg (init ++ [last]) ++ restRx) →
      ∃ s', superLoop_body cfg s = some s' ∧
        s'.g_passwordMistakes = s.g_passwordMistakes) := by
  refine ⟨fun s s1 s' hv hm hd => ?_, fun s s1 s' hv hm hd => ?_, ?_, ?_⟩
  · rw [dispatchOpen, if_pos hm] at hd
    exact ((frame_verification cfg _ _ _ hv).trans (frame_openingDoor cfg _ _ hd)).1
  · rw [dispatchChange, if_pos hm] at hd
    exact ((frame_verification cfg _ _ _ hv).trans (frame_newPassword cfg _ _ hd)).1
  · intro e restK restRx s he hlen htick hkeys hrx
    exact ⟨_, superLoop_body_open_success cfg hN hO hH hC e he restK restRx s hlen htick
      hkeys hrx, rfl⟩
  · intro e init last restK restRx s he hinit hl1 hl2 hlv hlen hkeys hrx
    exact ⟨_, superLoop_body_change_success cfg hN hM hne e he init last hinit hl1 hl2 hlv
      restK restRx s hlen hkeys hrx, rfl⟩

/-- Witness for C5 (as amended): an open-door pass answered `OPENING_DOOR`,
entered with one mistake on the counter, returns with one mistake on the
counter. -/
theorem mistakes_kept_on_success_witness :
    ∃ s',
      superLoop_body defaultConfig
        { initialState defaultConfig [43, 1, 2, 3, 4, 5, 61] [22, 23, 22, 23, 21, 34] with
          g_passwordMistakes := 1 } = some s' ∧
      s'.g_passwordMistakes = 1 :=
  (mistakes_kept_on_success defaultConfig (by decide) (by decide) (by decide) (by decide)
    (by decide) (by decide)).2.2.1 ⟨[1, 2, 3, 4, 5], []⟩ [] []
    { initialState defaultConfig [43, 1, 2, 3, 4, 5, 61] [22, 23, 22, 23, 21, 34] with
      g_passwordMistakes := 1 }
    ⟨by decide, by decide, by decide⟩ (by decide) (by decide) (by decide) (by decide)

/-- C6: entered with `g_tick = 0`, `HMI_openingDoor` returns; it starts the timer,
shows "Door is Opening" for exactly `OPEN_DOOR_TIME` ticks, "Door is on Hold"
for exactly `HOLD_DOOR_TIME` ticks and "Door is Closing" for exactly
`CLOSE_DOOR_TIME` ticks, then stops the timer and clears the display; the run
has `OPEN_DOOR_TIME + HOLD_DOOR_TIME + CLOSE_DOOR_TIME` ticks in all, and on
return `g_tick = 0` and the timer is stopped. -/
theorem HMI_openingDoor_sequence (cfg : Config) (hO : cfg.OPEN_DOOR_TIME < 256)
    (hH : cfg.HOLD_DOOR_TIME < 256) (hC : cfg.CLOSE_DOOR_TIME < 256)
    (s : St) (h0 : s.g_tick = 0) :
    HMI_openingDoor cfg s =
        some { s with g_tick := 0, timerOn := false, trace := s.trace ++ doorTrace cfg } ∧
      doorTrace cfg =
        [Event.timerStart, Event.lcdClear, Event.lcdString "Door is Opening"] ++
          List.replicate cfg.OPEN_DOOR_TIME Event.tick ++
        [Event.lcdClear, Event.lcdString "Door is on Hold"] ++
          List.replicate cfg.HOLD_DOOR_TIME Event.tick ++
        [Event.lcdClear, Event.lcdString "Door is Closing"] ++
          List.replicate cfg.CLOSE_DOOR_TIME Event.tick ++
        [Event.timerStop, Event.lcdClear] ∧
      ticksIn (doorTrace cfg) =
        cfg.OPEN_DOOR_TIME + cfg.HOLD_DOOR_TIME + cfg.CLOSE_DOOR_TIME := by
  obtain ⟨pw, ms, tk, pm, cmd, keys, rx, ton, tr, pk⟩ := s
  simp only at h0
  subst h0
  exact ⟨openingDoor_spec cfg hO hH hC pw ms pm cmd keys rx ton tr pk, rfl,
    ticksIn_doorTrace cfg⟩

/-- Witness for C6: with the sample durations the door sequence takes 33 ticks. -/
theorem HMI_openingDoor_sequence_witness :
    (HMI_openingDoor defaultConfig (initialState defaultConfig [] [])).map
        (fun s => (s.g_tick, s.timerOn, ticksIn s.trace)) = some (0, false, 33) := by
  rw [(HMI_openingDoor_sequence defaultConfig (by decide) (by decide) (by decide)
    (initialState defaultConfig [] []) rfl).1]
  rfl

/-- Counterexample to C7 as stated: answered `WRONG_PASSWORD`, which is not a
matched status, `HMI_newPassword` returns after that single round instead of
restarting. -/
theorem HMI_newPassword_returns_on_wrong_password :
    (HMI_newPassword defaultConfig
        (initialState defaultConfig [1, 2, 3, 4, 5, 61, 5, 4, 3, 2, 1, 61]
          [22, 23, 22, 23, 21, 48])).map
      (fun s => (s.g_matchStatus, s.keys, s.rx, roundsStarted s.trace)) =
      some (defaultConfig.WRONG_PASSWORD, [], [], 1) := by
  decide

/-- C7 (as amended): `HMI_newPassword` returns only with a verdict other than
`PASS_MIS_MATCHED` in `g_matchStatus`; a round answered with any byte other
than `PASS_MIS_MATCHED` (matched, wrong-password or unknown alike) ends the
workflow, and a round answered `PASS_MIS_MATCHED` shows the error and restarts
it from the first-entry prompt. -/
theorem HMI_newPassword_until_not_mismatched (cfg : Config)
    (hN : cfg.PASSWORD_LENGTH < 256) (hM : cfg.PASS_MIS_MATCHED < 256) :
    (∀ s s' : St, HMI_newPassword cfg s = some s' →
      s'.g_matchStatus ≠ cfg.PASS_MIS_MATCHED) ∧
    (∀ (r : Round) (restK restRx : List Nat) (s : St),
      r.first.ok cfg → r.second.ok cfg →
      s.g_inputPassword.length = cfg.PASSWORD_LENGTH →
      s.keys = r.keys ++ restK → s.rx = r.rx cfg ++ restRx →
      (r.verdict ≠ cfg.PASS_MIS_MATCHED →
        HMI_newPassword cfg s =
          some { s with
            g_inputPassword := r.second.password
            g_matchStatus := r.verdict
            g_command := r.verdict
            keys := restK
            rx := restRx
            trace := s.trace ++ r.trace cfg }) ∧
      (r.verdict = cfg.PASS_MIS_MATCHED →
        HMI_newPassword cfg s =
          HMI_newPassword cfg { s with
            g_inputPassword := r.second.password
            g_matchStatus := cfg.PASS_MIS_MATCHED
            g_command := cfg.PASS_MIS_MATCHED
            keys := restK
            rx := restRx
            trace := s.trace ++ r.trace cfg })) := by
  refine ⟨fun s s' h => newPassword_loop_exit cfg _ _ _ h, ?_⟩
  rintro r restK restRx ⟨pw, ms, tk, pm, cmd, keys, rx, ton, tr, pk⟩ h1 h2 hlen hk hrx
  simp only at hlen hk hrx
  subst hk hrx
  refine ⟨fun hv => ?_, fun hv => ?_⟩
  · have := newPassword_spec cfg hN hM [] r (by simp) h1 h2 hv restK restRx pw hlen ms tk pm
      cmd ton tr pk
    simpa [roundsKeys, roundsRx, roundsTrace] using this
  · simp only [HMI_newPassword, Nat.mod_eq_of_lt hM, List.length_append]
    rw [newPassword_loop, if_pos rfl, newPassword_body_spec cfg hN r h1 h2 pw hlen,
      Option.some_bind, hv]
    have h6 : (r.rx cfg).length = 6 := rfl
    exact newPassword_loop_fuel cfg _ _ _ (by simp only [h6]; omega) (by simp only []; omega)

/-- Witness for C7 (as amended): a round answered with the unknown byte 200 ends
enrollment. -/
theorem HMI_newPassword_until_not_mismatched_witness :
    (HMI_newPassword defaultConfig
        (initialState defaultConfig [1, 2, 3, 4, 5, 61, 1, 2, 3, 4, 5, 61]
          [22, 23, 22, 23, 21, 200])).map
      (fun s => (s.g_matchStatus, roundsStarted s.trace)) = some (200, 1) := by
  rw [((HMI_newPassword_until_not_mismatched defaultConfig (by decide) (by decide)).2
    ⟨⟨[1, 2, 3, 4, 5], []⟩, ⟨[1, 2, 3, 4, 5], []⟩, 200⟩ [] []
    (initialState defaultConfig [1, 2, 3, 4, 5, 61, 1, 2, 3, 4, 5, 61]
      [22, 23, 22, 23, 21, 200])
    ⟨by decide, by decide, by decide⟩ ⟨by decide, by decide, by decide⟩ (by decide)
    (by decide) (by decide)).1 (by decide)]
  rfl

/-- C8: in a pass of the super loop that reads the menu key `a` (`OPEN_DOOR` or
`CHANGE_PASSWORD`) and captures the password `p` of `PASSWORD_LENGTH` digits,
with a control MCU that answers each handshake without stray bytes and gives
the verdict `v`, the bytes transmitted up to the dispatch of the verdict are
`READY_TO_SEND, SEND_CHECK_PASSWORD, p[0], ..., p[N-1], READY_TO_SEND, a,
READY_TO_RECEIVE, RECEIVE_DONE` in this order, the verdict is received between
the last two, and it is what `g_matchStatus` holds when it is dispatched. -/
theorem verification_wire_trace (cfg : Config) (hN : cfg.PASSWORD_LENGTH < 256)
    (hRTS : cfg.READY_TO_SEND < 256) (hRTR : cfg.READY_TO_RECEIVE < 256)
    (hRD : cfg.RECEIVE_DONE < 256) (hSCP : cfg.SEND_CHECK_PASSWORD < 256)
    (a : Nat) (ha : a = cfg.OPEN_DOOR ∨ a = cfg.CHANGE_PASSWORD) (ha256 : a < 256)
    (e : Entry) (he : e.ok cfg) (v : Nat) (restK restRx : List Nat)
    (s : St) (hlen : s.g_inputPassword.length = cfg.PASSWORD_LENGTH)
    (hkeys : s.keys = a :: e.keys ++ restK)
    (hrx : s.rx = verificationRx cfg v ++ restRx) :
    superLoop_body cfg s =
        (if a = cfg.OPEN_DOOR then dispatchOpen cfg else dispatchChange cfg)
          (afterVerification cfg a e v restK restRx s) ∧
      (afterVerification cfg a e v restK restRx s).g_matchStatus = v ∧
      (afterVerification cfg a e v restK restRx s).g_inputPassword = e.password ∧
      e.password.length = cfg.PASSWORD_LENGTH ∧
      txBytes (afterVerification cfg a e v restK restRx s).trace =
        txBytes s.trace ++
          ([cfg.READY_TO_SEND, cfg.SEND_CHECK_PASSWORD] ++ e.password ++
            [cfg.READY_TO_SEND, a, cfg.READY_TO_RECEIVE, cfg.RECEIVE_DONE]) ∧
      linkTraffic (afterVerification cfg a e v restK restRx s).trace =
        linkTraffic s.trace ++
          ([Event.uartTx cfg.READY_TO_SEND, Event.uartRx cfg.READY_TO_RECEIVE,
            Event.uartTx cfg.SEND_CHECK_PASSWORD, Event.uartRx cfg.RECEIVE_DONE] ++
           e.password.map Event.uartTx ++
           [Event.uartTx cfg.READY_TO_SEND, Event.uartRx cfg.READY_TO_RECEIVE,
            Event.uartTx a, Event.uartRx cfg.RECEIVE_DONE,
            Event.uartRx cfg.READY_TO_SEND, Event.uartTx cfg.READY_TO_RECEIVE,
            Event.uartRx v, Event.uartTx cfg.RECEIVE_DONE]) := by
  have hbody : superLoop_body cfg s =
      (if a = cfg.OPEN_DOOR then dispatchOpen cfg else dispatchChange cfg)
        (afterVerification cfg a e v restK restRx s) := by
    by_cases hao : a = cfg.OPEN_DOOR
    · subst hao
      rw [if_pos rfl]
      exact superLoop_body_open cfg hN e he v restK restRx s hlen hkeys hrx
    · have hac : a = cfg.CHANGE_PASSWORD := ha.resolve_left hao
      subst hac
      rw [if_neg hao]
      exact superLoop_body_change cfg hN hao e he v restK restRx s hlen hkeys hrx
  have hm1 : txBytes menuTrace = [] := rfl
  have hm2 : linkTraffic menuTrace = [] := rfl
  have hk1 : txBytes [Event.key a] = [] := rfl
  have hk2 : linkTraffic [Event.key a] = [] := rfl
  have htr : (afterVerification cfg a e v restK restRx s).trace =
      s.trace ++ menuTrace ++ ([Event.key a] ++ verificationTrace cfg a e v) := rfl
  refine ⟨hbody, rfl, rfl, he.1, ?_, ?_⟩
  · rw [htr, txBytes_append, txBytes_append, txBytes_append, hm1, hk1,
      txBytes_verificationTrace, Nat.mod_eq_of_lt hRTS, Nat.mod_eq_of_lt hRTR,
      Nat.mod_eq_of_lt hRD, Nat.mod_eq_of_lt hSCP, Nat.mod_eq_of_lt ha256]
    simp
  · rw [htr, linkTraffic_append, linkTraffic_append, linkTraffic_append, hm2, hk2,
      linkTraffic_verificationTrace, Nat.mod_eq_of_lt hRTS, Nat.mod_eq_of_lt hRTR,
      Nat.mod_eq_of_lt hRD, Nat.mod_eq_of_lt hSCP, Nat.mod_eq_of_lt ha256]
    simp

/-- Witness for C8: the open-door verification of the password 12345. -/
theorem verification_wire_trace_witness :
    txBytes (afterVerification defaultConfig 43 ⟨[1, 2, 3, 4, 5], []⟩ 34 [] []
        (initialState defaultConfig [43, 1, 2, 3, 4, 5, 61] [22, 23, 22, 23, 21, 34])).trace =
      [21, 19, 1, 2, 3, 4, 5, 21, 43, 22, 23] :=
  (verification_wire_trace defaultConfig (by decide) (by decide) (by decide) (by decide)
    (by decide) 43 (Or.inl rfl) (by decide) ⟨[1, 2, 3, 4, 5], []⟩
    ⟨by decide, by decide, by decide⟩ 34 [] []
    (initialState defaultConfig [43, 1, 2, 3, 4, 5, 61] [22, 23, 22, 23, 21, 34])
    (by decide) (by decide) (by decide)).2.2.2.2.1

/-- C9: in a pass of the super loop whose verification is answered `v` (the
command values being distinct), the `OPEN_DOOR` case runs `HMI_openingDoor` on
`OPENING_DOOR` and `HMI_wrongPassword` on `WRONG_PASSWORD`, the
`CHANGE_PASSWORD` case runs `HMI_newPassword` on `CHANGING_PASSWORD` and
`HMI_wrongPassword` on `WRONG_PASSWORD`, and on every other verdict the pass
ends in the state in which the verdict arrived: nothing is run, shown or sent
after the verification, `g_passwordMistakes`, `g_tick` and the timer are as
before the pass, and the next pass starts from there with the menu. -/
theorem verdict_dispatch (cfg : Config) (hN : cfg.PASSWORD_LENGTH < 256)
    (hne : cfg.CHANGE_PASSWORD ≠ cfg.OPEN_DOOR)
    (hwo : cfg.WRONG_PASSWORD ≠ cfg.OPENING_DOOR)
    (hwc : cfg.WRONG_PASSWORD ≠ cfg.CHANGING_PASSWORD)
    (e : Entry) (he : e.ok cfg) (v : Nat) (restK restRx : List Nat)
    (s : St) (hlen : s.g_inputPassword.length = cfg.PASSWORD_LENGTH)
    (hrx : s.rx = verificationRx cfg v ++ restRx) :
    (s.keys = cfg.OPEN_DOOR :: e.keys ++ restK →
      (v = cfg.OPENING_DOOR →
        superLoop_body cfg s =
          HMI_openingDoor cfg (afterVerification cfg cfg.OPEN_DOOR e v restK restRx s)) ∧
      (v = cfg.WRONG_PASSWORD →
        superLoop_body cfg s =
          HMI_wrongPassword cfg (afterVerification cfg cfg.OPEN_DOOR e v restK restRx s)) ∧
      (v ≠ cfg.OPENING_DOOR → v ≠ cfg.WRONG_PASSWORD →
        superLoop_body cfg s =
          some (afterVerification cfg cfg.OPEN_DOOR e v restK restRx s) ∧
        ∀ n, superLoop cfg (n + 1) s =
          superLoop cfg n (afterVerification cfg cfg.OPEN_DOOR e v restK restRx s))) ∧
    (s.keys = cfg.CHANGE_PASSWORD :: e.keys ++ restK →
      (v = cfg.CHANGING_PASSWORD →
        superLoop_body cfg s =
          HMI_newPassword cfg
            (afterVerification cfg cfg.CHANGE_PASSWORD e v restK restRx s)) ∧
      (v = cfg.WRONG_PASSWORD →
        superLoop_body cfg s =
          HMI_wrongPassword cfg
            (afterVerification cfg cfg.CHANGE_PASSWORD e v restK restRx s)) ∧
      (v ≠ cfg.CHANGING_PASSWORD → v ≠ cfg.WRONG_PASSWORD →
        superLoop_body cfg s =
          some (afterVerification cfg cfg.CHANGE_PASSWORD e v restK restRx s) ∧
        ∀ n, superLoop cfg (n + 1) s =
          superLoop cfg n (afterVerification cfg cfg.CHANGE_PASSWORD e v restK restRx s))) ∧
    (∀ a,
      (afterVerification cfg a e v restK restRx s).g_passwordMistakes = s.g_passwordMistakes ∧
      (afterVerification cfg a e v restK restRx s).peakMistakes = s.peakMistakes ∧
      (afterVerification cfg a e v restK restRx s).g_tick = s.g_tick ∧
      (afterVerification cfg a e v restK restRx s).timerOn = s.timerOn ∧
      (afterVerification cfg a e v restK restRx s).trace =
        s.trace ++ menuTrace ++ Event.key a :: verificationTrace cfg a e v) := by
  refine ⟨fun hk => ?_, fun hk => ?_, fun a => ⟨rfl, rfl, rfl, rfl, rfl⟩⟩
  · have hb := superLoop_body_open cfg hN e he v restK restRx s hlen hk hrx
    have hv : (afterVerification cfg cfg.OPEN_DOOR e v restK restRx s).g_matchStatus = v := rfl
    refine ⟨fun h => ?_, fun h => ?_, fun h1 h2 => ?_⟩
    · rw [hb, dispatchOpen, hv, if_pos h]
    · rw [hb, dispatchOpen, hv, if_neg (by rw [h]; exact hwo), if_pos h]
    · have hs : superLoop_body cfg s =
          some (afterVerification cfg cfg.OPEN_DOOR e v restK restRx s) := by
        rw [hb, dispatchOpen, hv, if_neg h1, if_neg h2]
      exact ⟨hs, fun n => by rw [superLoop, hs, Option.some_bind]⟩
  · have hb := superLoop_body_change cfg hN hne e he v restK restRx s hlen hk hrx
    have hv : (afterVerification cfg cfg.CHANGE_PASSWORD e v restK restRx s).g_matchStatus = v :=
      rfl
    refine ⟨fun h => ?_, fun h => ?_, fun h1 h2 => ?_⟩
    · rw [hb, dispatchChange, hv, if_pos h]
    · rw [hb, dispatchChange, hv, if_neg (by rw [h]; exact hwc), if_pos h]
    · have hs : superLoop_body cfg s =
          some (afterVerification cfg cfg.CHANGE_PASSWORD e v restK restRx s) := by
        rw [hb, dispatchChange, hv, if_neg h1, if_neg h2]
      exact ⟨hs, fun n => by rw [superLoop, hs, Option.some_bind]⟩

/-- Witness for C9: an open-door verification answered `CHANGING_PASSWORD` falls
through: nothing is sent after the handshake and no tick is counted. -/
theorem verdict_dispatch_witness :
    (superLoop_body defaultConfig
        (initialState defaultConfig [43, 1, 2, 3, 4, 5, 61] [22, 23, 22, 23, 21, 49])).map
      (fun s => (s.g_matchStatus, s.g_passwordMistakes, s.g_tick, s.timerOn,
        txBytes s.trace, ticksIn s.trace)) =
      some (49, 0, 0, false, [21, 19, 1, 2, 3, 4, 5, 21, 43, 22, 23], 0) := by
  rw [((verdict_dispatch defaultConfig (by decide) (by decide) (by decide) (by decide)
    ⟨[1, 2, 3, 4, 5], []⟩ ⟨by decide, by decide, by decide⟩ 49 [] []
    (initialState defaultConfig [43, 1, 2, 3, 4, 5, 61] [22, 23, 22, 23, 21, 49])
    (by decide) (by decide)).1 (by decide)).2.2 (by decide) (by decide) |>.1]
  rfl

/-- C10: with a positive threshold (it is 3), from `g_passwordMistakes = 0` no
run of the session loop, whatever the keys and the bytes received, ever assigns
`g_passwordMistakes` a value above `MAX_NUM_OF_MISTAKES`
(`peakMistakes` is the largest value assigned), and after every pass, back at
the menu, the counter is strictly below the threshold; so it is for `main` from
the initial state. -/
theorem mistakes_bounded (cfg : Config) (hMax : 0 < cfg.MAX_NUM_OF_MISTAKES) :
    (∀ (n : Nat) (s s' : St), s.g_passwordMistakes = 0 → s.peakMistakes = 0 →
      superLoop cfg n s = some s' →
      s'.peakMistakes ≤ cfg.MAX_NUM_OF_MISTAKES ∧
        s'.g_passwordMistakes < cfg.MAX_NUM_OF_MISTAKES) ∧
    (∀ (n : Nat) (keys rx : List Nat) (s' : St),
      main cfg n (initialState cfg keys rx) = some s' →
      s'.peakMistakes ≤ cfg.MAX_NUM_OF_MISTAKES ∧
        s'.g_passwordMistakes < cfg.MAX_NUM_OF_MISTAKES) := by
  refine ⟨fun n s s' h0 hp h => ?_, fun n keys rx s' h => ?_⟩
  · have := superLoop_inv cfg n s s' h ⟨by rw [h0]; exact hMax, by rw [hp]; exact Nat.zero_le _⟩
    exact ⟨this.2, this.1⟩
  · rw [main, Option.bind_eq_some] at h
    obtain ⟨s1, h1, h2⟩ := h
    have hi : MistakesOk cfg (initialState cfg keys rx) := ⟨hMax, Nat.zero_le _⟩
    have := superLoop_inv cfg n s1 s' h2 (hi.of_frame (main_init_frame cfg _ _ h1))
    exact ⟨this.2, this.1⟩

set_option maxRecDepth 100000 in
/-- Witness for C10: a session with three wrong passwords in a row, and so one
warning phase of 60 ticks: the counter reaches the threshold 3, never more, and
is 0 back at the menu. -/
theorem mistakes_bounded_witness :
    ∃ s', main defaultConfig 3
        (initialState defaultConfig
          [1, 2, 3, 4, 5, 61, 1, 2, 3, 4, 5, 61, 43, 1, 2, 3, 4, 5, 61, 43, 1, 2, 3, 4, 5, 61,
           45, 1, 2, 3, 4, 5, 61]
          [22, 23, 22, 23, 21, 1, 22, 23, 22, 23, 21, 48, 22, 23, 22, 23, 21, 48,
           22, 23, 22, 23, 21, 48]) = some s' ∧
      ticksIn s'.trace = 60 ∧ s'.peakMistakes = 3 ∧ s'.g_passwordMistakes = 0 ∧
      s'.peakMistakes ≤ defaultConfig.MAX_NUM_OF_MISTAKES ∧
      s'.g_passwordMistakes < defaultConfig.MAX_NUM_OF_MISTAKES :=
  ⟨_, (Option.some_get (by decide)).symm, by decide, by decide, by decide,
    (mistakes_bounded defaultConfig (by decide)).2 3 _ _ _ (Option.some_get (by decide)).symm⟩

end HMI
